import Mathlib

/-!
# dgraphql: a shallow embedding of the HTTP client and its response handling

The repository has two Go files, `client.go` (`NewClient`, `GraphQL`, `DQL`, `RDF`) and
`dgraphql.go` (`New`, `RawQuery`).  Every operation builds one POST request, hands it to
`http.DefaultClient.Do`, checks the status code, reads the body, (except `RDF`) decodes the
body into an `errorResponse` to surface a server-reported error, and finally decodes the same
bytes into the caller's destination.

Modelling conventions.

* A Go string is a sequence of bytes.  The query string, which `json.Marshal` reads rune by
  rune and which DQL and RDF send as it is, is a list of bytes (`Bytes`), and so is the body of
  a request.  The other strings (URL, token, header values, error texts, the body of a
  response) are only passed on or compared, or are read by `encoding/json`, which coerces them
  to valid UTF-8; they are Lean `String`s.
* `resp.StatusCode` is a Go `int`; it is an `Int` here.
* Times are `Int` nanoseconds; `time.Duration` is `Int` nanoseconds.
* The Go standard library is not part of the repository.  `encoding/json` is embedded as a
  lexer and a pushdown parser for RFC 8259 text together with the decoding rules of
  `json.Unmarshal` for the one struct the client decodes itself; `fmt.Errorf` is embedded for
  the two ways the client calls it; `url.Parse`, the transport and `ioutil.ReadAll` are
  parameters of the model (`Env`, `Response`).
* The tracing span opened at entry and closed at exit carries no data that the control flow
  reads; it is left out.
-/

namespace Dgraphql

/-! ## JSON text -/

/-- The two kinds of error `json.Unmarshal` reports: `*json.SyntaxError` for text that is not
JSON, `*json.UnmarshalTypeError` for a JSON value that does not fit the Go type. -/
inductive JSONError where
  | syntaxError
  | unmarshalTypeError
  deriving DecidableEq, Repr

/-- A JSON value.  Numbers keep their literal text. -/
inductive JSON where
  | null
  | bool (b : Bool)
  | num (raw : String)
  | str (s : String)
  | arr (xs : List JSON)
  | obj (kvs : List (String × JSON))
  deriving Repr

/-- One unit of a string literal's content: a character, or a `\uXXXX` escape (a UTF-16 code
unit, paired up with its neighbour once the literal is complete). -/
inductive StrUnit where
  | chr (c : Char)
  | esc (n : Nat)
  deriving DecidableEq, Repr

inductive Token where
  | lbrace | rbrace | lbrack | rbrack | colon | comma
  | str (s : String)
  | num (raw : String)
  | tru | fls | nul
  deriving DecidableEq, Repr

def hexVal (c : Char) : Option Nat :=
  if '0' ≤ c ∧ c ≤ '9' then some (c.toNat - 48)
  else if 'a' ≤ c ∧ c ≤ 'f' then some (c.toNat - 87)
  else if 'A' ≤ c ∧ c ≤ 'F' then some (c.toNat - 55)
  else none

def isDigit (c : Char) : Bool := decide ('0' ≤ c ∧ c ≤ '9')

def isSpace (c : Char) : Bool := c == ' ' || c == '\t' || c == '\r' || c == '\n'

/-- Pair up UTF-16 escapes as `unquote` does: a high surrogate escape directly followed by a
low surrogate escape is one code point; any other surrogate escape is U+FFFD. -/
def decodeUnits : List StrUnit → List Char
  | [] => []
  | .chr c :: rest => c :: decodeUnits rest
  | .esc hi :: .esc lo :: rest =>
    if 0xD800 ≤ hi ∧ hi < 0xDC00 ∧ 0xDC00 ≤ lo ∧ lo < 0xE000 then
      Char.ofNat ((hi - 0xD800) * 1024 + (lo - 0xDC00) + 0x10000) :: decodeUnits rest
    else if 0xD800 ≤ hi ∧ hi < 0xE000 then Char.ofNat 0xFFFD :: decodeUnits (.esc lo :: rest)
    else Char.ofNat hi :: decodeUnits (.esc lo :: rest)
  | .esc n :: rest =>
    if 0xD800 ≤ n ∧ n < 0xE000 then Char.ofNat 0xFFFD :: decodeUnits rest
    else Char.ofNat n :: decodeUnits rest

/-- Where the scanner is inside a number literal. -/
inductive NumState where
  | neg      -- after the minus sign
  | zero     -- after a leading 0
  | int      -- after a nonzero leading digit and further digits
  | dot      -- after the decimal point
  | frac     -- after a digit of the fraction
  | e        -- after e or E
  | eSign    -- after the sign of the exponent
  | eDigit   -- after a digit of the exponent
  deriving DecidableEq, Repr

/-- The scanner state between two characters.  Accumulators are kept reversed. -/
inductive LexState where
  | start
  | inStr (acc : List StrUnit)
  | inEsc (acc : List StrUnit)
  | inUni (acc : List StrUnit) (hex : List Nat)
  | inNum (acc : List Char) (st : NumState)
  | inLit (rest : List Char) (tok : Token)
  deriving Repr

def NumState.accepting : NumState → Bool
  | .zero | .int | .frac | .eDigit => true
  | _ => false

/-- One more character of a number literal, when the literal can take it. -/
def NumState.next (st : NumState) (c : Char) : Option NumState :=
  match st with
  | .neg => if c == '0' then some .zero else if isDigit c then some .int else none
  | .zero => if c == '.' then some .dot else if c == 'e' || c == 'E' then some .e else none
  | .int =>
    if isDigit c then some .int else if c == '.' then some .dot
    else if c == 'e' || c == 'E' then some .e else none
  | .dot => if isDigit c then some .frac else none
  | .frac => if isDigit c then some .frac else if c == 'e' || c == 'E' then some .e else none
  | .e => if c == '+' || c == '-' then some .eSign else if isDigit c then some .eDigit else none
  | .eSign => if isDigit c then some .eDigit else none
  | .eDigit => if isDigit c then some .eDigit else none

/-- The scanner at the beginning of a token. -/
def lexStart (c : Char) : Except JSONError (LexState × List Token) :=
  if isSpace c then .ok (.start, [])
  else if c == '{' then .ok (.start, [.lbrace])
  else if c == '}' then .ok (.start, [.rbrace])
  else if c == '[' then .ok (.start, [.lbrack])
  else if c == ']' then .ok (.start, [.rbrack])
  else if c == ':' then .ok (.start, [.colon])
  else if c == ',' then .ok (.start, [.comma])
  else if c == '"' then .ok (.inStr [], [])
  else if c == '-' then .ok (.inNum [c] .neg, [])
  else if c == '0' then .ok (.inNum [c] .zero, [])
  else if isDigit c then .ok (.inNum [c] .int, [])
  else if c == 't' then .ok (.inLit ['r', 'u', 'e'] .tru, [])
  else if c == 'f' then .ok (.inLit ['a', 'l', 's', 'e'] .fls, [])
  else if c == 'n' then .ok (.inLit ['u', 'l', 'l'] .nul, [])
  else .error .syntaxError

def strToken (acc : List StrUnit) : Token := .str (String.mk (decodeUnits acc.reverse))

def numToken (acc : List Char) : Token := .num (String.mk acc.reverse)

/-- One character of input: the next state and the tokens completed by this character, the
latest first. -/
def lexStep (st : LexState) (c : Char) : Except JSONError (LexState × List Token) :=
  match st with
  | .start => lexStart c
  | .inStr acc =>
    if c == '"' then .ok (.start, [strToken acc])
    else if c == '\\' then .ok (.inEsc acc, [])
    else if c.toNat < 0x20 then .error .syntaxError
    else .ok (.inStr (.chr c :: acc), [])
  | .inEsc acc =>
    if c == '"' || c == '\\' || c == '/' then .ok (.inStr (.chr c :: acc), [])
    else if c == 'b' then .ok (.inStr (.chr (Char.ofNat 8) :: acc), [])
    else if c == 'f' then .ok (.inStr (.chr (Char.ofNat 12) :: acc), [])
    else if c == 'n' then .ok (.inStr (.chr '\n' :: acc), [])
    else if c == 'r' then .ok (.inStr (.chr '\r' :: acc), [])
    else if c == 't' then .ok (.inStr (.chr '\t' :: acc), [])
    else if c == 'u' then .ok (.inUni acc [], [])
    else .error .syntaxError
  | .inUni acc hex =>
    match hexVal c with
    | none => .error .syntaxError
    | some d =>
      match hex with
      | [c2, c1, c0] => .ok (.inStr (.esc (((c0 * 16 + c1) * 16 + c2) * 16 + d) :: acc), [])
      | _ => .ok (.inUni acc (d :: hex), [])
  | .inNum acc ns =>
    match ns.next c with
    | some ns' => .ok (.inNum (c :: acc) ns', [])
    | none =>
      if ns.accepting then
        match lexStart c with
        | .ok (st', toks) => .ok (st', toks ++ [numToken acc])
        | .error e => .error e
      else .error .syntaxError
  | .inLit rest tok =>
    match rest with
    | [] => .error .syntaxError
    | [x] => if c == x then .ok (.start, [tok]) else .error .syntaxError
    | x :: more => if c == x then .ok (.inLit more tok, []) else .error .syntaxError

/-- Run the scanner over the input; `toks` holds the tokens so far, the latest first. -/
def lex : LexState → List Token → List Char → Except JSONError (List Token)
  | .start, toks, [] => .ok toks.reverse
  | .inNum acc ns, toks, [] =>
    if ns.accepting then .ok (numToken acc :: toks).reverse else .error .syntaxError
  | _, _, [] => .error .syntaxError
  | st, toks, c :: cs =>
    match lexStep st c with
    | .ok (st', new) => lex st' (new ++ toks) cs
    | .error e => .error e

/-- An array or object under construction; what is done so far is kept reversed. -/
inductive Frame where
  | arr (done : List JSON)
  | obj (done : List (String × JSON)) (key : String)
  deriving Repr

/-- The parser between two tokens. -/
inductive PState where
  | value (stack : List Frame)                 -- a value must follow
  | first (stack : List Frame)                 -- after the bracket: a value or the closing bracket
  | key (done : List (String × JSON)) (stack : List Frame)    -- after a comma in an object
  | firstKey (stack : List Frame)              -- after the brace: a key or the closing brace
  | colon (done : List (String × JSON)) (k : String) (stack : List Frame)
  | after (v : JSON) (stack : List Frame)      -- a value is complete
  deriving Repr

/-- The scanner of `encoding/json` refuses text nested deeper than this. -/
def maxNestingDepth : Nat := 10000

/-- A token where a value may begin; `stack` holds the arrays and objects open around it. -/
def beginValue (t : Token) (stack : List Frame) : Except JSONError PState :=
  match t with
  | .lbrace => if stack.length < maxNestingDepth then .ok (.firstKey stack) else .error .syntaxError
  | .lbrack => if stack.length < maxNestingDepth then .ok (.first stack) else .error .syntaxError
  | .str s => .ok (.after (.str s) stack)
  | .num r => .ok (.after (.num r) stack)
  | .tru => .ok (.after (.bool true) stack)
  | .fls => .ok (.after (.bool false) stack)
  | .nul => .ok (.after .null stack)
  | _ => .error .syntaxError

def parseStep (st : PState) (t : Token) : Except JSONError PState :=
  match st with
  | .value stack => beginValue t stack
  | .first stack =>
    match t with
    | .rbrack => .ok (.after (.arr []) stack)
    | _ => beginValue t (.arr [] :: stack)
  | .firstKey stack =>
    match t with
    | .rbrace => .ok (.after (.obj []) stack)
    | .str k => .ok (.colon [] k stack)
    | _ => .error .syntaxError
  | .key done stack =>
    match t with
    | .str k => .ok (.colon done k stack)
    | _ => .error .syntaxError
  | .colon done k stack =>
    match t with
    | .colon => .ok (.value (.obj done k :: stack))
    | _ => .error .syntaxError
  | .after v stack =>
    match stack, t with
    | .arr done :: stack', .comma => .ok (.value (.arr (v :: done) :: stack'))
    | .arr done :: stack', .rbrack => .ok (.after (.arr (v :: done).reverse) stack')
    | .obj done k :: stack', .comma => .ok (.key ((k, v) :: done) stack')
    | .obj done k :: stack', .rbrace => .ok (.after (.obj ((k, v) :: done).reverse) stack')
    | _, _ => .error .syntaxError

def parseTokens : PState → List Token → Except JSONError JSON
  | .after v [], [] => .ok v
  | _, [] => .error .syntaxError
  | st, t :: ts =>
    match parseStep st t with
    | .ok st' => parseTokens st' ts
    | .error e => .error e

/-- The JSON value a text denotes, or a syntax error: one value, with optional white space
around it, and nothing else. -/
def parseJSON (b : String) : Except JSONError JSON :=
  match lex .start [] b.data with
  | .ok toks => parseTokens (.value []) toks
  | .error e => .error e

/-! ## Decoding a body into `errorResponse` -/

/-- Modelled from the spec: the element type of `errorResponse.Errors`, whose declaration is
not among the source files.  The spec gives each entry of the error envelope one field,
`message: string`; the client reads it as `er.Errors[0].Message`. -/
structure ErrorEntry where
  Message : String
  deriving DecidableEq, Repr

/-- Modelled from the spec: the struct `errorResponse`, whose declaration is not among the
source files.  The spec gives it as `{ errors: ordered sequence of { message: string } }`; the
client reads it as `er.Errors`. -/
structure errorResponse where
  Errors : List ErrorEntry
  deriving DecidableEq, Repr

/-- The representative of a character's case-folding orbit that `encoding/json` compares
object keys by.  Only orbits that contain an ASCII letter matter for ASCII field names: the
two cases of each letter, U+017F (long s) with `s`, and U+212A (Kelvin sign) with `k`. -/
def foldRune (c : Char) : Char :=
  if 'a' ≤ c ∧ c ≤ 'z' then Char.ofNat (c.toNat - 32)
  else if c = Char.ofNat 0x17F then 'S'
  else if c = Char.ofNat 0x212A then 'K'
  else c

/-- Whether an object key selects the struct field of the given JSON name. -/
def keyMatches (key name : String) : Bool :=
  key.data.map foldRune == name.data.map foldRune

/-- Decode one member of an object into an `ErrorEntry`: the new entry and whether the member
was a type mismatch. -/
def decodeEntryMember (cur : ErrorEntry × Bool) (kv : String × JSON) : ErrorEntry × Bool :=
  if keyMatches kv.1 "message" then
    match kv.2 with
    | .str s => ({ Message := s }, cur.2)
    | .null => cur
    | _ => (cur.1, true)
  else cur

/-- Decode a JSON value into an existing `ErrorEntry`.  A `null` leaves it alone, an object
sets the fields its keys name, anything else is a type mismatch. -/
def decodeEntry (v : JSON) (cur : ErrorEntry) : ErrorEntry × Bool :=
  match v with
  | .null => (cur, false)
  | .obj kvs => kvs.foldl decodeEntryMember (cur, false)
  | _ => (cur, true)

/-- The `Errors` slice while decoding: its backing array and its length.  Decoding an array
into a slice reuses the elements of the backing array without clearing them. -/
structure ErrorsSlice where
  backing : List ErrorEntry
  len : Nat
  deriving Repr

/-- Decode the elements of an array, the element at index `i` into the element of the backing
array at `i` (a zero entry where the backing array ends). -/
def decodeElements : List JSON → List ErrorEntry → List ErrorEntry × Bool
  | [], _ => ([], false)
  | x :: xs, backing =>
    let r := decodeEntry x (backing.headD { Message := "" })
    let rs := decodeElements xs backing.tail
    (r.1 :: rs.1, r.2 || rs.2)

/-- Decode a JSON value into the `Errors` field. -/
def decodeErrors (v : JSON) (cur : ErrorsSlice) : ErrorsSlice × Bool :=
  match v with
  | .null => ({ backing := [], len := 0 }, false)
  | .arr [] => ({ backing := [], len := 0 }, false)
  | .arr xs =>
    let r := decodeElements xs cur.backing
    ({ backing := r.1 ++ cur.backing.drop xs.length, len := xs.length }, r.2)
  | _ => (cur, true)

/-- Decode one member of the top-level object into the `Errors` field: the slice afterwards
and whether a type mismatch has been met so far. -/
def decodeResponseMember (cur : ErrorsSlice × Bool) (kv : String × JSON) :
    ErrorsSlice × Bool :=
  if keyMatches kv.1 "errors" then
    let r := decodeErrors kv.2 cur.1
    (r.1, cur.2 || r.2)
  else cur

/-- The function `json.Unmarshal(b, &er)` for `er` of type `errorResponse`: the value of `er`
afterwards and the error returned.  Text that is not JSON leaves `er` alone; a type mismatch
is remembered while the rest of the text is decoded, and reported at the end. -/
def unmarshalErrorResponse (b : String) (er : errorResponse) :
    errorResponse × Option JSONError :=
  match parseJSON b with
  | .error e => (er, some e)
  | .ok .null => (er, none)
  | .ok (.obj kvs) =>
    let r := kvs.foldl decodeResponseMember
      ({ backing := er.Errors, len := er.Errors.length }, false)
    ({ Errors := r.1.backing.take r.1.len }, if r.2 then some .unmarshalTypeError else none)
  | .ok _ => (er, some .unmarshalTypeError)

/-! ## `fmt.Errorf` -/

/-- The text of `fmt.Errorf("db returned non 200 code: %d", code)` for an `int` operand: the
verb `%d` prints the operand in decimal. -/
def errorfStatus (code : Int) : String := "db returned non 200 code: " ++ toString code

/-- The flags of a verb. -/
def skipFlags : List Char → List Char
  | [] => []
  | c :: cs =>
    if c == '#' || c == '0' || c == '+' || c == '-' || c == ' ' then skipFlags cs else c :: cs

/-- The function `parsenum` of package fmt on `s[start:end]`: the number, whether there was
one, and what follows it.  A number above a million gives up and skips to the end. -/
def parsenum : List Char → Nat → Bool → Nat × Bool × List Char
  | [], num, isnum => (num, isnum, [])
  | c :: cs, num, isnum =>
    if isDigit c then
      if 1000000 < num then (0, false, []) else parsenum cs (num * 10 + (c.toNat - 48)) true
    else (num, isnum, c :: cs)

/-- The function `argNumber` of package fmt when the call has no operands: what follows the
`[n]` index, if one starts here, whether an index was found, and whether the verb is still
free of a bad index (no index is in range when there are no operands). -/
def argNumber (cs : List Char) (good : Bool) : List Char × Bool × Bool :=
  match cs with
  | '[' :: rest =>
    if rest.length < 2 then (rest, false, false)
    else
      let inner := rest.takeWhile (· != ']')
      if inner.length < rest.length then
        let r := parsenum inner 0 false
        (rest.drop (inner.length + 1), r.2.1 && r.2.2.isEmpty, false)
      else (rest, false, false)
  | _ => (cs, false, good)

/-- The width of a verb, when the call has no operands.  The argument is what `argNumber`
returned; the result is what is written, the format that remains, whether the last item was
an index, and whether the verb is still free of a bad index.  A `*` asks for an operand, and
there is none. -/
def widthNoOperands (a : List Char × Bool × Bool) : List Char × List Char × Bool × Bool :=
  match a.1 with
  | '*' :: rest => ("%!(BADWIDTH)".data, rest, false, a.2.2)
  | rest =>
    ([], (parsenum rest 0 false).2.2, a.2.1,
      a.2.2 && !(a.2.1 && (parsenum rest 0 false).2.1))

/-- The precision of a verb, when the call has no operands.  A period begins a precision only
when something follows it (`i+1 < end`); a period that ends the format is left to be the
verb. -/
def precNoOperands (w : List Char × List Char × Bool × Bool) :
    List Char × List Char × Bool × Bool :=
  match w.2.1 with
  | '.' :: c :: more =>
    match (argNumber (c :: more) (w.2.2.2 && !w.2.2.1)).1 with
    | '*' :: rest2 =>
      (w.1 ++ "%!(BADPREC)".data, rest2, false,
        (argNumber (c :: more) (w.2.2.2 && !w.2.2.1)).2.2)
    | rest2 =>
      (w.1, (parsenum rest2 0 false).2.2, (argNumber (c :: more) (w.2.2.2 && !w.2.2.1)).2.1,
        (argNumber (c :: more) (w.2.2.2 && !w.2.2.1)).2.2)
  | _ => w

/-- One verb of a format, when the call has no operands: what is written for it and the
format that remains.  The steps are those of `doPrintf`: flags, index, width, precision,
index, verb. -/
def verbNoOperands (cs : List Char) : List Char × List Char :=
  let p := precNoOperands (widthNoOperands (argNumber (skipFlags cs) true))
  let a3 := if p.2.2.1 then (p.2.1, true, p.2.2.2) else argNumber p.2.1 p.2.2.2
  match a3.1 with
  | [] => (p.1 ++ "%!(NOVERB)".data, [])
  | v :: rest =>
    if v == '%' then (p.1 ++ ['%'], rest)
    else if !a3.2.2 then (p.1 ++ '%' :: '!' :: v :: "(BADINDEX)".data, rest)
    else (p.1 ++ '%' :: '!' :: v :: "(MISSING)".data, rest)

/-- The loop of `doPrintf` when the call has no operands: text up to a percent sign is copied,
a verb is replaced by what `verbNoOperands` writes for it. -/
def doPrintf : Nat → List Char → List Char
  | 0, _ => []
  | _ + 1, [] => []
  | fuel + 1, c :: cs =>
    if c == '%' then
      let r := verbNoOperands cs
      r.1 ++ doPrintf fuel r.2
    else c :: doPrintf fuel cs

/-- The text of the error `fmt.Errorf(format)` called with a format and no operands. -/
def Errorf (format : String) : String := String.mk (doPrintf format.length format.data)

/-! ## Byte strings and UTF-8 -/

/-- A Go string or byte slice: any sequence of bytes. -/
abbrev Bytes := List UInt8

/-- The rune `utf8.RuneError`, U+FFFD. -/
def RuneError : Char := Char.ofNat 0xFFFD

/-- The function `utf8.EncodeRune` on a valid rune: the UTF-8 bytes of a character. -/
def encodeRune (c : Char) : Bytes :=
  if c.toNat < 0x80 then [UInt8.ofNat c.toNat]
  else if c.toNat < 0x800 then
    [UInt8.ofNat (0xC0 + c.toNat / 64), UInt8.ofNat (0x80 + c.toNat % 64)]
  else if c.toNat < 0x10000 then
    [UInt8.ofNat (0xE0 + c.toNat / 4096), UInt8.ofNat (0x80 + c.toNat / 64 % 64),
      UInt8.ofNat (0x80 + c.toNat % 64)]
  else
    [UInt8.ofNat (0xF0 + c.toNat / 262144), UInt8.ofNat (0x80 + c.toNat / 4096 % 64),
      UInt8.ofNat (0x80 + c.toNat / 64 % 64), UInt8.ofNat (0x80 + c.toNat % 64)]

/-- The bytes of a text: the conversion `[]byte(s)` of a string that is valid UTF-8. -/
def bytesOf (s : String) : Bytes := s.data.flatMap encodeRune

/-- Whether a byte continues a sequence: the range 0x80..0xBF. -/
def isCont (b : UInt8) : Bool := decide (0x80 ≤ b.toNat ∧ b.toNat ≤ 0xBF)

/-- The function `utf8.DecodeRune`: the first rune of the bytes and its width.  Bytes that do
not begin a valid sequence give `(RuneError, 1)`. -/
def decodeRune (p : Bytes) : Char × Nat :=
  match p with
  | [] => (RuneError, 0)
  | b0 :: rest =>
    if b0.toNat < 0x80 then (Char.ofNat b0.toNat, 1)
    else if b0.toNat < 0xC2 then (RuneError, 1)
    else if b0.toNat < 0xE0 then
      match rest with
      | b1 :: _ =>
        if isCont b1 then (Char.ofNat ((b0.toNat - 0xC0) * 64 + (b1.toNat - 0x80)), 2)
        else (RuneError, 1)
      | _ => (RuneError, 1)
    else if b0.toNat < 0xF0 then
      match rest with
      | b1 :: b2 :: _ =>
        if (if b0.toNat = 0xE0 then 0xA0 else 0x80) ≤ b1.toNat
            ∧ b1.toNat ≤ (if b0.toNat = 0xED then 0x9F else 0xBF) ∧ isCont b2 then
          (Char.ofNat (((b0.toNat - 0xE0) * 64 + (b1.toNat - 0x80)) * 64 + (b2.toNat - 0x80)), 3)
        else (RuneError, 1)
      | _ => (RuneError, 1)
    else if b0.toNat < 0xF5 then
      match rest with
      | b1 :: b2 :: b3 :: _ =>
        if (if b0.toNat = 0xF0 then 0x90 else 0x80) ≤ b1.toNat
            ∧ b1.toNat ≤ (if b0.toNat = 0xF4 then 0x8F else 0xBF) ∧ isCont b2 ∧ isCont b3 then
          (Char.ofNat ((((b0.toNat - 0xF0) * 64 + (b1.toNat - 0x80)) * 64
            + (b2.toNat - 0x80)) * 64 + (b3.toNat - 0x80)), 4)
        else (RuneError, 1)
      | _ => (RuneError, 1)
    else (RuneError, 1)

/-- The runes of a byte string with their widths, as a loop `i += size` over
`utf8.DecodeRune` meets them; `skip` counts the bytes of the last rune still to pass. -/
def runes : Nat → Bytes → List (Char × Nat)
  | _, [] => []
  | skip + 1, _ :: rest => runes skip rest
  | 0, b :: rest => decodeRune (b :: rest) :: runes ((decodeRune (b :: rest)).2 - 1) rest

/-- The text of a byte string as `encoding/json` reads it: rune by rune, a byte that begins no
valid sequence read as U+FFFD. -/
def toValidText (s : Bytes) : String := String.mk ((runes 0 s).map (fun r => r.1))

/-- The JSON value that the bytes of a text denote.  The scanner of `encoding/json` works on
bytes: outside string literals only ASCII is accepted, inside them every byte from 0x20 on is,
and the literal is then coerced to valid UTF-8; that is the parse of the coerced text. -/
def parseJSONBytes (b : Bytes) : Except JSONError JSON := parseJSON (toValidText b)

/-! ## `json.Marshal` of the request body -/

/-- The body of a GraphQL call in `client.go`.  The field `Variables` is a Go map that the
client never sets, so the only value it takes, the nil map, is not stored. -/
structure Request where
  Query : Bytes
  deriving DecidableEq, Repr

/-- The body of a call in `dgraphql.go`. -/
structure request where
  Query : Bytes
  deriving DecidableEq, Repr

def hexDigit (n : Nat) : Char := "0123456789abcdef".data.getD n '0'

/-- How `json.Marshal` writes one valid character of a string: printable ASCII other than the
quote, the backslash and the three characters `<`, `>`, `&` as it is, the rest of ASCII
escaped; U+2028 and U+2029 escaped; every other character as it is.  Backspace and form feed
are written in the short form of Go 1.22 and later; earlier releases write them as `\u0008`
and `\u000c`, which the scanner reads back as the same characters. -/
def escapeChar (c : Char) : List Char :=
  if c == '"' || c == '\\' then ['\\', c]
  else if c == Char.ofNat 8 then ['\\', 'b']
  else if c == Char.ofNat 12 then ['\\', 'f']
  else if c == '\n' then ['\\', 'n']
  else if c == '\r' then ['\\', 'r']
  else if c == '\t' then ['\\', 't']
  else if c.toNat < 0x20 || c == '<' || c == '>' || c == '&' then
    ['\\', 'u', '0', '0', hexDigit (c.toNat / 16), hexDigit (c.toNat % 16)]
  else if c == Char.ofNat 0x2028 || c == Char.ofNat 0x2029 then
    ['\\', 'u', '2', '0', '2', hexDigit (c.toNat % 16)]
  else [c]

/-- How `json.Marshal` writes one rune of a string, given as `utf8.DecodeRune` returns it: a
byte that begins no valid sequence (`RuneError` of width 1) as the escape of U+FFFD, a valid
character as `escapeChar` says. -/
def escapeRune (r : Char × Nat) : List Char :=
  if r.1 == RuneError && r.2 == 1 then ['\\', 'u', 'f', 'f', 'f', 'd'] else escapeChar r.1

/-- A Go string as a JSON string literal; the literal is always valid text. -/
def marshalString (s : Bytes) : List Char :=
  '"' :: ((runes 0 s).flatMap escapeRune ++ ['"'])

/-- The text of `json.Marshal(qr)` for `qr` of type `Request`. -/
def marshalRequestText (qr : Request) : String :=
  String.mk ("\x7b\"query\":".data ++ marshalString qr.Query ++ ",\"variables\":null\x7d".data)

/-- The function `json.Marshal(qr)` for `qr` of type `Request`.  It cannot fail for this type:
a string and a nil map always encode. -/
def marshalRequest (qr : Request) : Bytes := bytesOf (marshalRequestText qr)

/-- The text of `json.Marshal(qr)` for `qr` of type `request`. -/
def marshalrequestText (qr : request) : String :=
  String.mk ("\x7b\"query\":".data ++ marshalString qr.Query ++ "\x7d".data)

/-- The function `json.Marshal(qr)` for `qr` of type `request`. -/
def marshalrequest (qr : request) : Bytes := bytesOf (marshalrequestText qr)

/-! ## Contexts, requests and responses -/

/-- What the client reads of a `context.Context`: its deadline, if it has one. -/
structure Context where
  deadline : Option Int
  deriving DecidableEq, Repr

/-- The context `context.Background()`. -/
def Context.background : Context := { deadline := none }

/-- The constant `ClientTimeout = 20 * time.Second`, in nanoseconds. -/
def ClientTimeout : Int := 20 * 1000000000

/-- The call `context.WithTimeout(parent, timeout)` made at time `now`: the child's deadline is
`now + timeout` unless the parent's deadline is before that. -/
def withTimeout (now : Int) (parent : Context) (timeout : Int) : Context :=
  match parent.deadline with
  | some cur => if cur < now + timeout then parent else { deadline := some (now + timeout) }
  | none => { deadline := some (now + timeout) }

/-- An `*http.Request` as the client builds it. -/
structure HTTPRequest where
  Method : String
  URL : String
  Header : List (String × String)
  Body : Bytes
  ctx : Context
  deriving DecidableEq, Repr

/-- The call `req.Header.Add(key, value)`; both keys the client uses are in canonical form. -/
def HTTPRequest.headerAdd (req : HTTPRequest) (key value : String) : HTTPRequest :=
  { req with Header := req.Header ++ [(key, value)] }

/-- An `*http.Response` as the client reads it: the status code, and what
`ioutil.ReadAll(resp.Body)` gives, the bytes of the body or a read error. -/
structure Response where
  StatusCode : Int
  Body : Except String String

/-- What surrounds a call: the clock, `url.Parse` (the error text for a URL it rejects) and
`http.DefaultClient.Do` (a response or a transport error). -/
structure Env where
  now : Int
  urlError : String → Option String
  roundTrip : HTTPRequest → Except String Response

/-- The call `http.NewRequestWithContext(ctx, method, url, body)` for a valid method and a
context that is not nil: it fails exactly when the URL does not parse. -/
def newRequestWithContext (env : Env) (ctx : Context) (method url : String) (body : Bytes) :
    Except String HTTPRequest :=
  match env.urlError url with
  | some e => .error e
  | none => .ok { Method := method, URL := url, Header := [], Body := body, ctx := ctx }

/-- The call `http.NewRequest(method, url, body)`, which uses the background context. -/
def newRequest (env : Env) (method url : String) (body : Bytes) :
    Except String HTTPRequest :=
  newRequestWithContext env Context.background method url body

/-- The return statement an error comes from, with its text where the client makes the text. -/
inductive Error where
  | newRequest (e : String)        -- from `http.NewRequestWithContext`
  | transport (e : String)         -- from `http.DefaultClient.Do`
  | status (text : String)         -- `fmt.Errorf("db returned non 200 code: %d", ...)`
  | read (e : String)              -- from `ioutil.ReadAll`
  | envelope (e : JSONError)       -- from `json.Unmarshal(b, &er)`
  | server (text : String)         -- `fmt.Errorf(er.Errors[0].Message)`
  | decode (e : String)            -- from `json.Unmarshal(b, result)`
  deriving DecidableEq, Repr

/-- A library call made on the response. -/
inductive Call where
  | readAll              -- `ioutil.ReadAll(resp.Body)`
  | unmarshalEnvelope    -- `json.Unmarshal(b, &er)`
  | unmarshalResult      -- `json.Unmarshal(b, result)`
  deriving DecidableEq, Repr

/-- How `json.Unmarshal(b, result)` acts on a destination whose dynamic type is `σ`: the
destination afterwards and the error returned, if any. -/
abbrev Unmarshal (σ : Type) := String → σ → σ × Option String

/-- What a call leaves behind: the error returned (`none` for nil), the destination (`none`
for the nil interface), the request handed to `http.DefaultClient.Do`, and the library calls
made on the response, in order. -/
structure Outcome (σ : Type) where
  err : Option Error
  result : Option σ
  sent : Option HTTPRequest
  calls : List Call

/-! ## The client -/

structure Client where
  url : String
  token : String
  deriving DecidableEq, Repr

def NewClient (url token : String) : Client := { url := url, token := token }

def New (url token : String) : Client := { url := url, token := token }

def Client.GraphQL {σ : Type} (env : Env) (um : Unmarshal σ) (c : Client) (ctx : Context)
    (q : Bytes) (result : Option σ) : Outcome σ :=
  let qr : Request := { Query := q }
  let buf := marshalRequest qr
  let ctx := withTimeout env.now ctx ClientTimeout
  let url := c.url ++ "/graphql"
  match newRequestWithContext env ctx "POST" url buf with
  | .error e => ⟨some (.newRequest e), result, none, []⟩
  | .ok req =>
    let req := req.headerAdd "Content-Type" "application/json"
    let req := req.headerAdd "Dg-Auth" c.token
    match env.roundTrip req with
    | .error e => ⟨some (.transport e), result, some req, []⟩
    | .ok resp =>
      if resp.StatusCode ≠ 200 then
        ⟨some (.status (errorfStatus resp.StatusCode)), result, some req, []⟩
      else
        match resp.Body with
        | .error e => ⟨some (.read e), result, some req, [.readAll]⟩
        | .ok b =>
          match unmarshalErrorResponse b { Errors := [] } with
          | (_, some e) => ⟨some (.envelope e), result, some req, [.readAll, .unmarshalEnvelope]⟩
          | (er, none) =>
            match er.Errors with
            | e0 :: _ =>
              ⟨some (.server (Errorf e0.Message)), result, some req,
                [.readAll, .unmarshalEnvelope]⟩
            | [] =>
              match result with
              | none => ⟨none, none, some req, [.readAll, .unmarshalEnvelope]⟩
              | some dst =>
                let r := um b dst
                ⟨r.2.map Error.decode, some r.1, some req,
                  [.readAll, .unmarshalEnvelope, .unmarshalResult]⟩

def Client.DQL {σ : Type} (env : Env) (um : Unmarshal σ) (c : Client) (ctx : Context)
    (q : Bytes) (result : Option σ) : Outcome σ :=
  let ctx := withTimeout env.now ctx ClientTimeout
  let url := c.url ++ "/query"
  match newRequestWithContext env ctx "POST" url q with
  | .error e => ⟨some (.newRequest e), result, none, []⟩
  | .ok req =>
    let req := req.headerAdd "Content-Type" "application/dql"
    let req := req.headerAdd "Dg-Auth" c.token
    match env.roundTrip req with
    | .error e => ⟨some (.transport e), result, some req, []⟩
    | .ok resp =>
      if resp.StatusCode ≠ 200 then
        ⟨some (.status (errorfStatus resp.StatusCode)), result, some req, []⟩
      else
        match resp.Body with
        | .error e => ⟨some (.read e), result, some req, [.readAll]⟩
        | .ok b =>
          match unmarshalErrorResponse b { Errors := [] } with
          | (_, some e) => ⟨some (.envelope e), result, some req, [.readAll, .unmarshalEnvelope]⟩
          | (er, none) =>
            match er.Errors with
            | e0 :: _ =>
              ⟨some (.server (Errorf e0.Message)), result, some req,
                [.readAll, .unmarshalEnvelope]⟩
            | [] =>
              match result with
              | none => ⟨none, none, some req, [.readAll, .unmarshalEnvelope]⟩
              | some dst =>
                let r := um b dst
                ⟨r.2.map Error.decode, some r.1, some req,
                  [.readAll, .unmarshalEnvelope, .unmarshalResult]⟩

def Client.RDF {σ : Type} (env : Env) (um : Unmarshal σ) (c : Client) (ctx : Context)
    (q : Bytes) (result : Option σ) : Outcome σ :=
  let ctx := withTimeout env.now ctx ClientTimeout
  let url := c.url ++ "/mutate?commitNow=true"
  match newRequestWithContext env ctx "POST" url q with
  | .error e => ⟨some (.newRequest e), result, none, []⟩
  | .ok req =>
    let req := req.headerAdd "Content-Type" "application/rdf"
    let req := req.headerAdd "Dg-Auth" c.token
    match env.roundTrip req with
    | .error e => ⟨some (.transport e), result, some req, []⟩
    | .ok resp =>
      if resp.StatusCode ≠ 200 then
        ⟨some (.status (errorfStatus resp.StatusCode)), result, some req, []⟩
      else
        match resp.Body with
        | .error e => ⟨some (.read e), result, some req, [.readAll]⟩
        | .ok b =>
          match result with
          | none => ⟨none, none, some req, [.readAll]⟩
          | some dst =>
            let r := um b dst
            ⟨r.2.map Error.decode, some r.1, some req, [.readAll, .unmarshalResult]⟩

/-- The method `RawQuery` of `dgraphql.go`.  The context is passed to the tracer only; the
request is built by `http.NewRequest` and goes to `c.url` itself. -/
def Client.RawQuery {σ : Type} (env : Env) (um : Unmarshal σ) (c : Client) (_ctx : Context)
    (q : Bytes) (result : Option σ) : Outcome σ :=
  let qr : request := { Query := q }
  let buf := marshalrequest qr
  match newRequest env "POST" c.url buf with
  | .error e => ⟨some (.newRequest e), result, none, []⟩
  | .ok req =>
    let req := req.headerAdd "Content-Type" "application/json"
    let req := req.headerAdd "Dg-Auth" c.token
    match env.roundTrip req with
    | .error e => ⟨some (.transport e), result, some req, []⟩
    | .ok resp =>
      if resp.StatusCode ≠ 200 then
        ⟨some (.status (errorfStatus resp.StatusCode)), result, some req, []⟩
      else
        match resp.Body with
        | .error e => ⟨some (.read e), result, some req, [.readAll]⟩
        | .ok b =>
          match unmarshalErrorResponse b { Errors := [] } with
          | (_, some e) => ⟨some (.envelope e), result, some req, [.readAll, .unmarshalEnvelope]⟩
          | (er, none) =>
            match er.Errors with
            | e0 :: _ =>
              ⟨some (.server (Errorf e0.Message)), result, some req,
                [.readAll, .unmarshalEnvelope]⟩
            | [] =>
              match result with
              | none => ⟨none, none, some req, [.readAll, .unmarshalEnvelope]⟩
              | some dst =>
                let r := um b dst
                ⟨r.2.map Error.decode, some r.1, some req,
                  [.readAll, .unmarshalEnvelope, .unmarshalResult]⟩

/-- The four entry points of the repository. -/
inductive Op where
  | GraphQL | DQL | RDF | RawQuery
  deriving DecidableEq, Repr

/-- Call the entry point named by `op`. -/
def Op.run {σ : Type} (op : Op) (env : Env) (um : Unmarshal σ) (c : Client) (ctx : Context)
    (q : Bytes) (result : Option σ) : Outcome σ :=
  match op with
  | .GraphQL => c.GraphQL env um ctx q result
  | .DQL => c.DQL env um ctx q result
  | .RDF => c.RDF env um ctx q result
  | .RawQuery => c.RawQuery env um ctx q result

/-- Whether the entry point decodes the body into `errorResponse` before the result decode. -/
def Op.checksEnvelope : Op → Bool
  | .RDF => false
  | _ => true

/-- A surrounding in which every URL parses and every request is answered with the given
status code and body. -/
def Env.answering (code : Int) (body : String) : Env :=
  { now := 0, urlError := fun _ => none, roundTrip := fun _ => .ok ⟨code, .ok body⟩ }

/-- The text without the JSON white space around it. -/
def trimSpace (b : String) : String :=
  String.mk ((b.data.dropWhile isSpace).reverse.dropWhile isSpace).reverse

/-- The function `json.Unmarshal(b, result)` for a `result` of type `*json.RawMessage`, held
as its text.  The method `UnmarshalJSON` of that type stores the text of the value as it
stands, so every JSON value fits; text that is not JSON is a syntax error and leaves the
destination alone. -/
def unmarshalRawMessage : Unmarshal String := fun b dst =>
  match parseJSON b with
  | .ok _ => (trimSpace b, none)
  | .error _ => (dst, some "json: syntax error")

/-! ## The sequence the four entry points share

The entry points repeat one sequence with a different request and with or without the
envelope check.  The definitions below spell that sequence out once; `Op.run_eq` shows that
each entry point is an instance of it. -/

/-- The last step: the nil check and the result decode. -/
def decodeResult {σ : Type} (um : Unmarshal σ) (b : String) (result : Option σ)
    (req : HTTPRequest) (calls : List Call) : Outcome σ :=
  match result with
  | none => ⟨none, none, some req, calls⟩
  | some dst => ⟨(um b dst).2.map Error.decode, some (um b dst).1, some req,
      calls ++ [.unmarshalResult]⟩

/-- The envelope check followed by the last step. -/
def checkEnvelope {σ : Type} (um : Unmarshal σ) (b : String) (result : Option σ)
    (req : HTTPRequest) : Outcome σ :=
  match unmarshalErrorResponse b { Errors := [] } with
  | (_, some e) => ⟨some (.envelope e), result, some req, [.readAll, .unmarshalEnvelope]⟩
  | (er, none) =>
    match er.Errors with
    | e0 :: _ =>
      ⟨some (.server (Errorf e0.Message)), result, some req, [.readAll, .unmarshalEnvelope]⟩
    | [] => decodeResult um b result req [.readAll, .unmarshalEnvelope]

/-- What an entry point does with the answer of the transport. -/
def respond {σ : Type} (checks : Bool) (um : Unmarshal σ) (req : HTTPRequest)
    (answer : Except String Response) (result : Option σ) : Outcome σ :=
  match answer with
  | .error e => ⟨some (.transport e), result, some req, []⟩
  | .ok resp =>
    if resp.StatusCode ≠ 200 then
      ⟨some (.status (errorfStatus resp.StatusCode)), result, some req, []⟩
    else
      match resp.Body with
      | .error e => ⟨some (.read e), result, some req, [.readAll]⟩
      | .ok b =>
        if checks then checkEnvelope um b result req
        else decodeResult um b result req [.readAll]

/-- The URL an entry point posts to. -/
def Op.url (op : Op) (c : Client) : String :=
  match op with
  | .GraphQL => c.url ++ "/graphql"
  | .DQL => c.url ++ "/query"
  | .RDF => c.url ++ "/mutate?commitNow=true"
  | .RawQuery => c.url

/-- The request an entry point hands to the transport once the URL has parsed. -/
def Op.request (op : Op) (env : Env) (c : Client) (ctx : Context) (q : Bytes) : HTTPRequest :=
  match op with
  | .GraphQL =>
    { Method := "POST", URL := c.url ++ "/graphql",
      Header := [("Content-Type", "application/json"), ("Dg-Auth", c.token)],
      Body := marshalRequest { Query := q }, ctx := withTimeout env.now ctx ClientTimeout }
  | .DQL =>
    { Method := "POST", URL := c.url ++ "/query",
      Header := [("Content-Type", "application/dql"), ("Dg-Auth", c.token)],
      Body := q, ctx := withTimeout env.now ctx ClientTimeout }
  | .RDF =>
    { Method := "POST", URL := c.url ++ "/mutate?commitNow=true",
      Header := [("Content-Type", "application/rdf"), ("Dg-Auth", c.token)],
      Body := q, ctx := withTimeout env.now ctx ClientTimeout }
  | .RawQuery =>
    { Method := "POST", URL := c.url,
      Header := [("Content-Type", "application/json"), ("Dg-Auth", c.token)],
      Body := marshalrequest { Query := q }, ctx := Context.background }

/-! ## A destination with a concrete shape -/

/-- The Go type `struct{ A int }`. -/
structure DataA where
  A : Int
  deriving DecidableEq, Repr

/-- The Go type `struct{ Data struct{ A int } }`, a destination shaped `{Data:{A:int}}`. -/
structure DataDest where
  Data : DataA
  deriving DecidableEq, Repr

/-- The value of a run of decimal digits, when every character is one. -/
def parseDigits : List Char → Nat → Option Nat
  | [], n => some n
  | c :: cs, n => if isDigit c then parseDigits cs (n * 10 + (c.toNat - 48)) else none

/-- The call `strconv.ParseInt(raw, 10, 64)` on the text of a JSON number, which never has a
plus sign: an optional minus sign and digits, with a value that fits 64 bits. -/
def parseInt64 (raw : String) : Option Int :=
  let v : Option Int :=
    match raw.data with
    | [] => none
    | ['-'] => none
    | '-' :: ds => (parseDigits ds 0).map (fun n => - (n : Int))
    | ds => (parseDigits ds 0).map (fun n => (n : Int))
  match v with
  | some n => if -9223372036854775808 ≤ n ∧ n ≤ 9223372036854775807 then some n else none
  | none => none

def decodeDataAMember (cur : DataA × Bool) (kv : String × JSON) : DataA × Bool :=
  if keyMatches kv.1 "A" then
    match kv.2 with
    | .num raw =>
      match parseInt64 raw with
      | some n => ({ A := n }, cur.2)
      | none => (cur.1, true)
    | .null => cur
    | _ => (cur.1, true)
  else cur

def decodeDataDestMember (cur : DataDest × Bool) (kv : String × JSON) : DataDest × Bool :=
  if keyMatches kv.1 "Data" then
    match kv.2 with
    | .obj kvs =>
      let r := kvs.foldl decodeDataAMember (cur.1.Data, false)
      ({ Data := r.1 }, cur.2 || r.2)
    | .null => cur
    | _ => (cur.1, true)
  else cur

/-- The function `json.Unmarshal(b, result)` for a `result` that points to a `DataDest`. -/
def unmarshalDataDest : Unmarshal DataDest := fun b dst =>
  match parseJSON b with
  | .error _ => (dst, some "json: syntax error")
  | .ok .null => (dst, none)
  | .ok (.obj kvs) =>
    let r := kvs.foldl decodeDataDestMember (dst, false)
    (r.1, if r.2 then some "json: cannot unmarshal" else none)
  | .ok _ => (dst, some "json: cannot unmarshal")

/-- The unit the scanner reads back for a character as `escapeChar` writes it. -/
def unitOf (c : Char) : StrUnit :=
  match escapeChar c with
  | '\\' :: 'u' :: _ => .esc c.toNat
  | _ => .chr c

/-- The unit the scanner reads back for a rune as `escapeRune` writes it. -/
def unitOfRune (r : Char × Nat) : StrUnit :=
  if r.1 == RuneError && r.2 == 1 then .esc 0xFFFD else unitOf r.1

/-! ## Theorems -/

/-! ### The embedded library functions on sample inputs -/

theorem parseJSON_samples :
    parseJSON "[1, -2.5e+3,true , null,\"a\\u0041\\n\"]"
        = .ok (.arr [.num "1", .num "-2.5e+3", .bool true, .null, .str "aA\n"])
      ∧ parseJSON " \x7b\"data\":\x7b\"a\":1\x7d, \"x\":[]\x7d "
        = .ok (.obj [("data", .obj [("a", .num "1")]), ("x", .arr [])])
      ∧ parseJSON "\"\\ud83d\\ude00\"" = .ok (.str (String.mk [Char.ofNat 0x1F600]))
      ∧ parseJSON "\"\\ud83d\"" = .ok (.str (String.mk [Char.ofNat 0xFFFD]))
      ∧ parseJSON "" = .error .syntaxError
      ∧ parseJSON "[1,]" = .error .syntaxError
      ∧ parseJSON "01" = .error .syntaxError
      ∧ parseJSON "nul" = .error .syntaxError
      ∧ parseJSON "1 2" = .error .syntaxError :=
  ⟨rfl, rfl, rfl, rfl, rfl, rfl, rfl, rfl, rfl⟩

theorem unmarshalErrorResponse_samples :
    unmarshalErrorResponse "\x7b\"errors\":[\x7b\"message\":\"X\"\x7d]\x7d" ⟨[]⟩
        = (⟨[⟨"X"⟩]⟩, none)
      ∧ unmarshalErrorResponse
          "\x7b\"Errors\":[\x7b\"MESSAGE\":\"X\", \"code\":3\x7d, null]\x7d" ⟨[]⟩
        = (⟨[⟨"X"⟩, ⟨""⟩]⟩, none)
      ∧ unmarshalErrorResponse
          "\x7b\"errors\":[\x7b\"message\":\"a\"\x7d],\"errors\":[\x7b\x7d]\x7d" ⟨[]⟩
        = (⟨[⟨"a"⟩]⟩, none)
      ∧ unmarshalErrorResponse "\x7b\"errors\":\"x\"\x7d" ⟨[]⟩
        = (⟨[]⟩, some .unmarshalTypeError)
      ∧ unmarshalErrorResponse "\x7b\"errors\":[1]\x7d" ⟨[]⟩
        = (⟨[⟨""⟩]⟩, some .unmarshalTypeError)
      ∧ unmarshalErrorResponse "[]" ⟨[]⟩ = (⟨[]⟩, some .unmarshalTypeError)
      ∧ unmarshalErrorResponse "null" ⟨[]⟩ = (⟨[]⟩, none)
      ∧ unmarshalErrorResponse "\x7b\"data\":\x7b\"a\":1\x7d\x7d" ⟨[]⟩ = (⟨[]⟩, none)
      ∧ unmarshalErrorResponse "not json" ⟨[]⟩ = (⟨[]⟩, some .syntaxError) :=
  ⟨rfl, rfl, rfl, rfl, rfl, rfl, rfl, rfl, rfl⟩

theorem Errorf_samples :
    Errorf "plain text" = "plain text"
      ∧ Errorf "100%" = "100%!(NOVERB)"
      ∧ Errorf "100%." = "100%!.(MISSING)"
      ∧ Errorf "%5.|%.3|%[1]." = "%!|(MISSING)%!|(MISSING)%!.(BADINDEX)"
      ∧ Errorf "%5." = "%!.(MISSING)"
      ∧ Errorf "%.5" = "%!(NOVERB)"
      ∧ Errorf "a %d b %% c %[1]d %5.2f %*d %z"
        = "a %!d(MISSING) b % c %!d(BADINDEX) %!f(MISSING) %!(BADWIDTH)%!d(MISSING) %!z(MISSING)"
      ∧ Errorf "%[d|%.*d|%[1" = "%!d(BADINDEX)|%!(BADPREC)%!d(MISSING)|%!(NOVERB)"
      ∧ Errorf "%[1]d|%12345678d|%d" = "%!d(BADINDEX)|%!(NOVERB)"
      ∧ errorfStatus 404 = "db returned non 200 code: 404"
      ∧ errorfStatus (-1) = "db returned non 200 code: -1" :=
  ⟨rfl, rfl, rfl, rfl, rfl, rfl, rfl, rfl, rfl, rfl, rfl⟩

theorem utf8_samples :
    bytesOf "a\u00e9\u20ac" = [0x61, 0xC3, 0xA9, 0xE2, 0x82, 0xAC]
      ∧ bytesOf (String.mk [Char.ofNat 0x1F600]) = [0xF0, 0x9F, 0x98, 0x80]
      ∧ runes 0 [0x61, 0xC3, 0xA9, 0xE2, 0x82, 0xAC, 0xF0, 0x9F, 0x98, 0x80]
        = [('a', 1), (Char.ofNat 0xE9, 2), (Char.ofNat 0x20AC, 3), (Char.ofNat 0x1F600, 4)]
      ∧ runes 0 [0xFF, 0x61, 0xC3, 0xE2, 0x82, 0x22]
        = [(RuneError, 1), ('a', 1), (RuneError, 1), (RuneError, 1), (RuneError, 1), ('"', 1)]
      ∧ runes 0 [0xED, 0xA0, 0x80, 0xC0, 0x80]
        = [(RuneError, 1), (RuneError, 1), (RuneError, 1), (RuneError, 1), (RuneError, 1)]
      ∧ runes 0 [0xEF, 0xBF, 0xBD] = [(RuneError, 3)] := by
  decide

theorem marshalRequest_samples :
    marshalRequestText ⟨bytesOf "a\"b<\n\x01"⟩
        = "\x7b\"query\":\"a\\\"b\\u003c\\n\\u0001\",\"variables\":null\x7d"
      ∧ marshalRequestText ⟨[0x61, 0xFF, 0xEF, 0xBF, 0xBD]⟩
        = String.mk ("\x7b\"query\":\"a\\ufffd".data ++ [Char.ofNat 0xFFFD]
            ++ "\",\"variables\":null\x7d".data) := by
  decide

/-! ### The four entry points as instances of the shared sequence -/

/-- Each entry point is the shared sequence on its own request. -/
theorem Op.run_eq {σ : Type} (op : Op) (env : Env) (um : Unmarshal σ) (c : Client)
    (ctx : Context) (q : Bytes) (result : Option σ) :
    op.run env um c ctx q result =
      match env.urlError (op.url c) with
      | some e => ⟨some (.newRequest e), result, none, []⟩
      | none =>
        respond op.checksEnvelope um (op.request env c ctx q)
          (env.roundTrip (op.request env c ctx q)) result := by
  cases op
  · simp only [Op.run, Client.GraphQL, newRequestWithContext, Op.url]
    cases env.urlError (c.url ++ "/graphql") <;> rfl
  · simp only [Op.run, Client.DQL, newRequestWithContext, Op.url]
    cases env.urlError (c.url ++ "/query") <;> rfl
  · simp only [Op.run, Client.RDF, newRequestWithContext, Op.url]
    cases env.urlError (c.url ++ "/mutate?commitNow=true") <;> rfl
  · simp only [Op.run, Client.RawQuery, newRequest, newRequestWithContext, Op.url]
    cases env.urlError c.url <;> rfl

theorem decodeResult_sent {σ : Type} (um : Unmarshal σ) (b : String) (result : Option σ)
    (req : HTTPRequest) (calls : List Call) :
    (decodeResult um b result req calls).sent = some req := by
  cases result <;> rfl

theorem checkEnvelope_sent {σ : Type} (um : Unmarshal σ) (b : String) (result : Option σ)
    (req : HTTPRequest) : (checkEnvelope um b result req).sent = some req := by
  unfold checkEnvelope
  split
  · rfl
  · split
    · rfl
    · exact decodeResult_sent ..

theorem respond_sent {σ : Type} (checks : Bool) (um : Unmarshal σ) (req : HTTPRequest)
    (answer : Except String Response) (result : Option σ) :
    (respond checks um req answer result).sent = some req := by
  unfold respond
  split
  · rfl
  · split
    · rfl
    · split
      · rfl
      · split
        · exact checkEnvelope_sent ..
        · exact decodeResult_sent ..

/-- A request is handed to the transport exactly when the URL parses, and it is then the
request of `Op.request`. -/
theorem Op.sent_eq {σ : Type} (op : Op) (env : Env) (um : Unmarshal σ) (c : Client)
    (ctx : Context) (q : Bytes) (result : Option σ) :
    (op.run env um c ctx q result).sent =
      match env.urlError (op.url c) with
      | some _ => none
      | none => some (op.request env c ctx q) := by
  rw [Op.run_eq]
  cases env.urlError (op.url c)
  · exact respond_sent ..
  · rfl

theorem Op.sent_some {σ : Type} {op : Op} {env : Env} {um : Unmarshal σ} {c : Client}
    {ctx : Context} {q : Bytes} {result : Option σ} {req : HTTPRequest}
    (h : (op.run env um c ctx q result).sent = some req) :
    env.urlError (op.url c) = none ∧ req = op.request env c ctx q := by
  rw [Op.sent_eq] at h
  cases hu : env.urlError (op.url c) with
  | some e => rw [hu] at h; cases h
  | none => rw [hu] at h; exact ⟨rfl, (Option.some.inj h).symm⟩

/-- The run of an entry point in terms of the shared sequence, once a request was sent. -/
theorem Op.run_of_sent {σ : Type} {op : Op} {env : Env} {um : Unmarshal σ} {c : Client}
    {ctx : Context} {q : Bytes} {result : Option σ} {req : HTTPRequest}
    (h : (op.run env um c ctx q result).sent = some req) :
    op.run env um c ctx q result
      = respond op.checksEnvelope um req (env.roundTrip req) result := by
  obtain ⟨hu, rfl⟩ := Op.sent_some h
  rw [Op.run_eq, hu]

/-- C1: when the transport answers the request with a status code other than 200, each of
GraphQL, DQL, RDF and RawQuery returns the error "db returned non 200 code: " followed by the
code in decimal, leaves the destination as it was, and makes no library call on the response
(no read of the body, no envelope decode, no result decode); a surrounding that differs only
in the body of the response gives the same outcome. -/
theorem status_not_200 {σ : Type} (op : Op) (env : Env) (um : Unmarshal σ) (c : Client)
    (ctx : Context) (q : Bytes) (result : Option σ) (req : HTTPRequest) (resp : Response)
    (hsent : (op.run env um c ctx q result).sent = some req)
    (hresp : env.roundTrip req = .ok resp) (hcode : resp.StatusCode ≠ 200) :
    (op.run env um c ctx q result).err
        = some (.status ("db returned non 200 code: " ++ toString resp.StatusCode))
      ∧ (op.run env um c ctx q result).result = result
      ∧ (op.run env um c ctx q result).calls = []
      ∧ ∀ (env2 : Env) (body2 : Except String String),
          env2.now = env.now → env2.urlError = env.urlError →
          env2.roundTrip req = .ok ⟨resp.StatusCode, body2⟩ →
          op.run env2 um c ctx q result = op.run env um c ctx q result := by
  have hrun := Op.run_of_sent hsent
  obtain ⟨hu, hreq⟩ := Op.sent_some hsent
  have key : op.run env um c ctx q result
      = ⟨some (.status (errorfStatus resp.StatusCode)), result, some req, []⟩ := by
    rw [hrun, hresp]
    simp only [respond, hcode, ne_eq, not_false_eq_true, ite_true]
  refine ⟨by rw [key]; rfl, by rw [key], by rw [key], ?_⟩
  intro env2 body2 hnow hurl hresp2
  have hreq2 : op.request env2 c ctx q = req := by
    rw [hreq]; cases op <;> simp only [Op.request, hnow]
  rw [key, Op.run_eq, hurl, hu]
  simp only [hreq2, hresp2, respond, hcode, ne_eq, not_false_eq_true, ite_true]

/-- Witness of C1 at a 404 answer to a GraphQL call with a nil destination. -/
theorem status_not_200_witness :
    ((Op.GraphQL.run (Env.answering 404 "gone") unmarshalRawMessage (NewClient "http://db" "t")
        ⟨none⟩ (bytesOf "q") none).err = some (.status "db returned non 200 code: 404")) :=
  (status_not_200 Op.GraphQL (Env.answering 404 "gone") unmarshalRawMessage (NewClient "http://db" "t")
    ⟨none⟩ (bytesOf "q") none _ ⟨404, .ok "gone"⟩ rfl rfl (by decide)).1

theorem respond_ok_200 {σ : Type} (checks : Bool) (um : Unmarshal σ) (req : HTTPRequest)
    (resp : Response) (b : String) (result : Option σ)
    (hcode : resp.StatusCode = 200) (hbody : resp.Body = .ok b) :
    respond checks um req (.ok resp) result
      = if checks then checkEnvelope um b result req
        else decodeResult um b result req [.readAll] := by
  simp only [respond, hcode, ne_eq, not_true_eq_false, ite_false, hbody]

theorem checkEnvelope_pass {σ : Type} (um : Unmarshal σ) (b : String) (result : Option σ)
    (req : HTTPRequest) (h : unmarshalErrorResponse b { Errors := [] } = ({ Errors := [] }, none)) :
    checkEnvelope um b result req
      = decodeResult um b result req [.readAll, .unmarshalEnvelope] := by
  simp only [checkEnvelope, h]

/-- C3: when the transport answers an RDF call with status 200 and the body is read, the
outcome is that of decoding the raw body into the destination (the decoded destination and
the error of the decode), or success with no decode when the destination is nil; the body is
never decoded into the error envelope, whatever it holds. -/
theorem rdf_decodes_directly {σ : Type} (env : Env) (um : Unmarshal σ) (c : Client)
    (ctx : Context) (q : Bytes) (result : Option σ) (req : HTTPRequest) (resp : Response)
    (b : String)
    (hsent : (c.RDF env um ctx q result).sent = some req)
    (hresp : env.roundTrip req = .ok resp) (hcode : resp.StatusCode = 200)
    (hbody : resp.Body = .ok b) :
    c.RDF env um ctx q result =
      match result with
      | none => ⟨none, none, some req, [.readAll]⟩
      | some dst =>
        ⟨(um b dst).2.map Error.decode, some (um b dst).1, some req,
          [.readAll, .unmarshalResult]⟩ := by
  have hrun : Op.RDF.run env um c ctx q result
      = respond Op.RDF.checksEnvelope um req (env.roundTrip req) result :=
    Op.run_of_sent hsent
  simp only [Op.run] at hrun
  rw [hrun, hresp, respond_ok_200 _ _ _ _ b _ hcode hbody]
  cases result <;> rfl

/-- Witness of C3: a body with a non-empty top-level `errors` list and a nil destination; the
call succeeds and only reads the body. -/
theorem rdf_decodes_directly_witness :
    (NewClient "http://db" "t").RDF
        (Env.answering 200 "\x7b\"errors\":[\x7b\"message\":\"X\"\x7d]\x7d") unmarshalRawMessage
        ⟨none⟩ (bytesOf "q") none
      = ⟨none, none,
          some (Op.RDF.request
            (Env.answering 200 "\x7b\"errors\":[\x7b\"message\":\"X\"\x7d]\x7d")
            (NewClient "http://db" "t") ⟨none⟩ (bytesOf "q")),
          [.readAll]⟩ :=
  rdf_decodes_directly (Env.answering 200 "\x7b\"errors\":[\x7b\"message\":\"X\"\x7d]\x7d")
    unmarshalRawMessage (NewClient "http://db" "t") ⟨none⟩ (bytesOf "q") none _
    ⟨200, .ok "\x7b\"errors\":[\x7b\"message\":\"X\"\x7d]\x7d"⟩ _ rfl rfl rfl rfl

/-- What the envelope check does with a body that decodes without error into an envelope
with at least one entry: the error is `fmt.Errorf` of the first entry's message, the later
entries play no part, and the destination is left alone. -/
theorem checkEnvelope_entries {σ : Type} (um : Unmarshal σ) (b : String) (result : Option σ)
    (req : HTTPRequest) (e0 : ErrorEntry) (rest : List ErrorEntry)
    (h : unmarshalErrorResponse b { Errors := [] } = ({ Errors := e0 :: rest }, none)) :
    checkEnvelope um b result req
      = ⟨some (.server (Errorf e0.Message)), result, some req, [.readAll, .unmarshalEnvelope]⟩ := by
  simp only [checkEnvelope, h]

theorem doPrintf_no_percent (cs : List Char) (h : '%' ∉ cs) (fuel : Nat)
    (hfuel : cs.length ≤ fuel) : doPrintf fuel cs = cs := by
  induction cs generalizing fuel with
  | nil => cases fuel <;> rfl
  | cons c cs ih =>
    cases fuel with
    | zero => simp at hfuel
    | succ fuel =>
      have hc : (c == '%') = false := by
        simp only [beq_eq_false_iff_ne, ne_eq]
        intro hc; exact h (hc ▸ List.mem_cons_self _ _)
      simp only [doPrintf, hc, Bool.false_eq_true, ite_false]
      rw [ih (fun hm => h (List.mem_cons_of_mem _ hm)) fuel
        (by simpa using hfuel)]

/-- A format without a percent sign is the text of the error. -/
theorem Errorf_no_percent (m : String) (h : '%' ∉ m.data) : Errorf m = m := by
  unfold Errorf
  rw [doPrintf_no_percent m.data h m.length (Nat.le_refl _)]

/-- C2, at a message with a percent sign: the server answers a GraphQL, DQL or RawQuery call
with status 200 and the body `{"errors":[{"message":"rate 100%"}]}`.  The envelope decodes to
one entry whose message is "rate 100%", and the error returned has the text
"rate 100%!(NOVERB)", because the message is passed to `fmt.Errorf` as the format. -/
theorem server_message_used_as_format :
    unmarshalErrorResponse "\x7b\"errors\":[\x7b\"message\":\"rate 100%\"\x7d]\x7d" { Errors := [] }
        = ({ Errors := [{ Message := "rate 100%" }] }, none)
      ∧ ((NewClient "http://db" "t").GraphQL
          (Env.answering 200 "\x7b\"errors\":[\x7b\"message\":\"rate 100%\"\x7d]\x7d")
          unmarshalRawMessage ⟨none⟩ (bytesOf "q") none).err = some (.server "rate 100%!(NOVERB)")
      ∧ ((NewClient "http://db" "t").DQL
          (Env.answering 200 "\x7b\"errors\":[\x7b\"message\":\"rate 100%\"\x7d]\x7d")
          unmarshalRawMessage ⟨none⟩ (bytesOf "q") none).err = some (.server "rate 100%!(NOVERB)")
      ∧ ((New "http://db" "t").RawQuery
          (Env.answering 200 "\x7b\"errors\":[\x7b\"message\":\"rate 100%\"\x7d]\x7d")
          unmarshalRawMessage ⟨none⟩ (bytesOf "q") none).err = some (.server "rate 100%!(NOVERB)") :=
  ⟨rfl, rfl, rfl, rfl⟩

/-- The part of C2 that holds: on a status-200 answer whose body decodes into an envelope with
a first entry `e0`, GraphQL, DQL and RawQuery return the server-reported error whose text is
`fmt.Errorf` of `e0.Message`, whatever the later entries and the destination are; the text is
the message itself when the message has no percent sign. -/
theorem server_error_first_message {σ : Type} (op : Op) (env : Env) (um : Unmarshal σ)
    (c : Client) (ctx : Context) (q : Bytes) (result : Option σ) (req : HTTPRequest)
    (resp : Response) (b : String) (e0 : ErrorEntry) (rest : List ErrorEntry)
    (hop : op.checksEnvelope = true)
    (hsent : (op.run env um c ctx q result).sent = some req)
    (hresp : env.roundTrip req = .ok resp) (hcode : resp.StatusCode = 200)
    (hbody : resp.Body = .ok b)
    (henv : unmarshalErrorResponse b { Errors := [] } = ({ Errors := e0 :: rest }, none)) :
    (op.run env um c ctx q result).err = some (.server (Errorf e0.Message))
      ∧ ('%' ∉ e0.Message.data →
          (op.run env um c ctx q result).err = some (.server e0.Message)) := by
  have hrun := Op.run_of_sent hsent
  have key : (op.run env um c ctx q result).err = some (.server (Errorf e0.Message)) := by
    rw [hrun, hresp, respond_ok_200 _ _ _ _ b _ hcode hbody, hop]
    simp only [ite_true, checkEnvelope_entries um b result req e0 rest henv]
  exact ⟨key, fun h => by rw [key, Errorf_no_percent _ h]⟩

/-- The witness named by C2: the body `{"errors":[{"message":"X"}]}` gives the text "X". -/
theorem server_error_first_message_witness :
    ((NewClient "http://db" "t").GraphQL
        (Env.answering 200 "\x7b\"errors\":[\x7b\"message\":\"X\"\x7d]\x7d")
        unmarshalRawMessage ⟨none⟩ (bytesOf "q") none).err = some (.server "X") :=
  (server_error_first_message Op.GraphQL
    (Env.answering 200 "\x7b\"errors\":[\x7b\"message\":\"X\"\x7d]\x7d") unmarshalRawMessage
    (NewClient "http://db" "t") ⟨none⟩ (bytesOf "q") none _
    ⟨200, .ok "\x7b\"errors\":[\x7b\"message\":\"X\"\x7d]\x7d"⟩ _ ⟨"X"⟩ [] rfl rfl rfl rfl rfl
    rfl).2 (by decide)

/-- C4, as stated, fails: GraphQL is answered with status 200 and an empty body, which holds no
error list, and is called with a nil destination; it returns the syntax error of the envelope
decode. -/
theorem nil_destination_empty_body :
    (unmarshalErrorResponse "" { Errors := [] }).1.Errors = []
      ∧ ((NewClient "http://db" "t").GraphQL (Env.answering 200 "") unmarshalRawMessage
          ⟨none⟩ (bytesOf "q") none).err = some (.envelope .syntaxError)
      ∧ ((NewClient "http://db" "t").GraphQL (Env.answering 200 "") unmarshalRawMessage
          ⟨none⟩ (bytesOf "q") none).err ≠ none :=
  ⟨rfl, rfl, by rw [show ((NewClient "http://db" "t").GraphQL (Env.answering 200 "") unmarshalRawMessage
          ⟨none⟩ (bytesOf "q") none).err = some (.envelope .syntaxError) from rfl]; simp⟩

/-- C4, amended: on a status-200 answer whose body is read, a call with a nil destination
returns no error, keeps the destination nil and makes no result decode, for RDF whatever the
bytes of the body are, and for the entry points that check the envelope (GraphQL, DQL,
RawQuery) when the body decodes without error into an envelope with no entries. -/
theorem nil_destination_no_decode {σ : Type} (op : Op) (env : Env) (um : Unmarshal σ)
    (c : Client) (ctx : Context) (q : Bytes) (req : HTTPRequest) (resp : Response)
    (b : String)
    (hsent : (op.run env um c ctx q none).sent = some req)
    (hresp : env.roundTrip req = .ok resp) (hcode : resp.StatusCode = 200)
    (hbody : resp.Body = .ok b)
    (henv : op.checksEnvelope = true →
      unmarshalErrorResponse b { Errors := [] } = ({ Errors := [] }, none)) :
    (op.run env um c ctx q none).err = none
      ∧ (op.run env um c ctx q none).result = none
      ∧ Call.unmarshalResult ∉ (op.run env um c ctx q none).calls := by
  have hrun := Op.run_of_sent hsent
  rw [hrun, hresp, respond_ok_200 _ _ _ _ b _ hcode hbody]
  cases hop : op.checksEnvelope with
  | false => simp [decodeResult]
  | true => simp [checkEnvelope_pass um b none req (henv hop), decodeResult]

/-- Witness of C4 amended: RDF answered with status 200 and a body that is not JSON, and
GraphQL answered with status 200 and the body `{"data":null}`, both with a nil destination. -/
theorem nil_destination_no_decode_witness :
    ((NewClient "http://db" "t").RDF (Env.answering 200 "not json") unmarshalRawMessage
        ⟨none⟩ (bytesOf "q") none).err = none
      ∧ unmarshalErrorResponse "\x7b\"data\":null\x7d" { Errors := [] }
          = ({ Errors := [] }, none)
      ∧ ((NewClient "http://db" "t").GraphQL (Env.answering 200 "\x7b\"data\":null\x7d")
          unmarshalRawMessage ⟨none⟩ (bytesOf "q") none).err = none :=
  ⟨(nil_destination_no_decode Op.RDF (Env.answering 200 "not json") unmarshalRawMessage
      (NewClient "http://db" "t") ⟨none⟩ (bytesOf "q") _ ⟨200, .ok "not json"⟩ _ rfl rfl rfl rfl
      (fun h => (by cases h))).1,
    rfl,
    (nil_destination_no_decode Op.GraphQL (Env.answering 200 "\x7b\"data\":null\x7d")
      unmarshalRawMessage (NewClient "http://db" "t") ⟨none⟩ (bytesOf "q") _
      ⟨200, .ok "\x7b\"data\":null\x7d"⟩ _ rfl rfl rfl rfl (fun _ => rfl)).1⟩

/-- C5, as stated, fails: GraphQL is answered with status 200 and the body `[]`, which has no
error list, and is called with a destination of type `*json.RawMessage` that is empty.
Decoding the body into that destination succeeds and stores `[]`; the call returns the type
error of the envelope decode and leaves the destination as it was. -/
theorem array_body_not_decoded :
    unmarshalRawMessage "[]" "" = ("[]", none)
      ∧ ((NewClient "http://db" "t").GraphQL (Env.answering 200 "[]") unmarshalRawMessage
          ⟨none⟩ (bytesOf "q") (some "")).err = some (.envelope .unmarshalTypeError)
      ∧ ((NewClient "http://db" "t").GraphQL (Env.answering 200 "[]") unmarshalRawMessage
          ⟨none⟩ (bytesOf "q") (some "")).result = some "" :=
  ⟨rfl, rfl, rfl⟩

/-- C5, amended: on a status-200 answer whose body decodes without error into an envelope with
no entries, GraphQL, DQL and RawQuery called with a destination that is not nil have the
outcome of decoding the same body into the destination: the destination is what the decode
leaves, and the error is the error of the decode, none when the decode succeeds. -/
theorem result_decode_outcome {σ : Type} (op : Op) (env : Env) (um : Unmarshal σ)
    (c : Client) (ctx : Context) (q : Bytes) (dst : σ) (req : HTTPRequest) (resp : Response)
    (b : String)
    (hop : op.checksEnvelope = true)
    (hsent : (op.run env um c ctx q (some dst)).sent = some req)
    (hresp : env.roundTrip req = .ok resp) (hcode : resp.StatusCode = 200)
    (hbody : resp.Body = .ok b)
    (henv : unmarshalErrorResponse b { Errors := [] } = ({ Errors := [] }, none)) :
    (op.run env um c ctx q (some dst)).err = (um b dst).2.map Error.decode
      ∧ (op.run env um c ctx q (some dst)).result = some (um b dst).1
      ∧ (op.run env um c ctx q (some dst)).calls
          = [.readAll, .unmarshalEnvelope, .unmarshalResult] := by
  have hrun := Op.run_of_sent hsent
  rw [hrun, hresp, respond_ok_200 _ _ _ _ b _ hcode hbody, hop]
  simp [checkEnvelope_pass um b (some dst) req henv, decodeResult]

/-- Witness of C5 amended, the one the claim names: the body `{"data":{"a":1}}` and a
destination shaped `{Data:{A:int}}`; the call succeeds and `A` is 1. -/
theorem result_decode_outcome_witness :
    ((NewClient "http://db" "t").GraphQL
        (Env.answering 200 "\x7b\"data\":\x7b\"a\":1\x7d\x7d") unmarshalDataDest
        ⟨none⟩ (bytesOf "q") (some ⟨⟨0⟩⟩)).err = none
      ∧ ((NewClient "http://db" "t").GraphQL
        (Env.answering 200 "\x7b\"data\":\x7b\"a\":1\x7d\x7d") unmarshalDataDest
        ⟨none⟩ (bytesOf "q") (some ⟨⟨0⟩⟩)).result = some ⟨⟨1⟩⟩ :=
  have h := result_decode_outcome Op.GraphQL
    (Env.answering 200 "\x7b\"data\":\x7b\"a\":1\x7d\x7d") unmarshalDataDest
    (NewClient "http://db" "t") ⟨none⟩ (bytesOf "q") ⟨⟨0⟩⟩ _
    ⟨200, .ok "\x7b\"data\":\x7b\"a\":1\x7d\x7d"⟩ _ rfl rfl rfl rfl rfl rfl
  ⟨h.1, h.2.1⟩

theorem decodeResponseMember_empty (kvs : List (String × JSON))
    (h : ∀ kv ∈ kvs, keyMatches kv.1 "errors" = true → kv.2 = .null ∨ kv.2 = .arr []) :
    kvs.foldl decodeResponseMember ({ backing := [], len := 0 }, false)
      = ({ backing := [], len := 0 }, false) := by
  induction kvs with
  | nil => rfl
  | cons kv kvs ih =>
    have hstep : decodeResponseMember ({ backing := [], len := 0 }, false) kv
        = ({ backing := [], len := 0 }, false) := by
      unfold decodeResponseMember
      split
      · next hk =>
        rcases h kv (List.mem_cons_self _ _) hk with hv | hv <;> rw [hv] <;> rfl
      · rfl
    rw [List.foldl_cons, hstep]
    exact ih (fun kv2 hm => h kv2 (List.mem_cons_of_mem _ hm))

/-- The envelope decode accepts a JSON object in which every member whose key matches `errors`
is `null` or the empty array, and finds no entries. -/
theorem unmarshalErrorResponse_object (b : String) (kvs : List (String × JSON))
    (hparse : parseJSON b = .ok (.obj kvs))
    (h : ∀ kv ∈ kvs, keyMatches kv.1 "errors" = true → kv.2 = .null ∨ kv.2 = .arr []) :
    unmarshalErrorResponse b { Errors := [] } = ({ Errors := [] }, none) := by
  simp only [unmarshalErrorResponse, hparse, List.length_nil, decodeResponseMember_empty kvs h,
    List.take_nil, Bool.false_eq_true, ite_false]

/-- C8, as stated, fails: GraphQL is answered with status 200 and the body `[{"a":1}]`, a
payload with another top-level structure and no `errors` field.  The envelope decode reports
a type error and the call returns it, without reaching the nil check (the destination is
nil) or the result decode. -/
theorem array_payload_fails_envelope :
    parseJSON "[\x7b\"a\":1\x7d]" = .ok (.arr [.obj [("a", .num "1")]])
      ∧ unmarshalErrorResponse "[\x7b\"a\":1\x7d]" { Errors := [] }
          = ({ Errors := [] }, some .unmarshalTypeError)
      ∧ (NewClient "http://db" "t").GraphQL (Env.answering 200 "[\x7b\"a\":1\x7d]")
          unmarshalRawMessage ⟨none⟩ (bytesOf "q") none
        = ⟨some (.envelope .unmarshalTypeError), none,
            some (Op.GraphQL.request (Env.answering 200 "[\x7b\"a\":1\x7d]")
              (NewClient "http://db" "t") ⟨none⟩ (bytesOf "q")),
            [.readAll, .unmarshalEnvelope]⟩ :=
  ⟨rfl, rfl, rfl⟩

/-- The envelope decode accepts the JSON value `null` and finds no entries. -/
theorem unmarshalErrorResponse_null (b : String) (hparse : parseJSON b = .ok .null) :
    unmarshalErrorResponse b { Errors := [] } = ({ Errors := [] }, none) := by
  simp only [unmarshalErrorResponse, hparse]

/-- C8, amended: on a status-200 answer whose body is the JSON value `null`, or a JSON object
in which every member whose key matches `errors` is `null` or the empty array (in particular
an object without an `errors` field, whatever its other members are), GraphQL, DQL and
RawQuery return no error of the envelope decode and go on to the nil check and the result
decode: the outcome is success without a decode for a nil destination, and the outcome of the
result decode otherwise. -/
theorem envelope_accepts_object {σ : Type} (op : Op) (env : Env) (um : Unmarshal σ)
    (c : Client) (ctx : Context) (q : Bytes) (result : Option σ) (req : HTTPRequest)
    (resp : Response) (b : String)
    (hop : op.checksEnvelope = true)
    (hsent : (op.run env um c ctx q result).sent = some req)
    (hresp : env.roundTrip req = .ok resp) (hcode : resp.StatusCode = 200)
    (hbody : resp.Body = .ok b)
    (hshape : parseJSON b = .ok .null
      ∨ ∃ kvs, parseJSON b = .ok (.obj kvs)
          ∧ ∀ kv ∈ kvs, keyMatches kv.1 "errors" = true → kv.2 = .null ∨ kv.2 = .arr []) :
    (∀ e, (op.run env um c ctx q result).err ≠ some (.envelope e))
      ∧ op.run env um c ctx q result =
          match result with
          | none => ⟨none, none, some req, [.readAll, .unmarshalEnvelope]⟩
          | some dst =>
            ⟨(um b dst).2.map Error.decode, some (um b dst).1, some req,
              [.readAll, .unmarshalEnvelope, .unmarshalResult]⟩ := by
  have hrun := Op.run_of_sent hsent
  have henv : unmarshalErrorResponse b { Errors := [] } = ({ Errors := [] }, none) := by
    rcases hshape with hnull | ⟨kvs, hparse, herrors⟩
    · exact unmarshalErrorResponse_null b hnull
    · exact unmarshalErrorResponse_object b kvs hparse herrors
  have key : op.run env um c ctx q result
      = decodeResult um b result req [.readAll, .unmarshalEnvelope] := by
    rw [hrun, hresp, respond_ok_200 _ _ _ _ b _ hcode hbody, hop]
    simp only [ite_true, checkEnvelope_pass um b result req henv]
  rw [key]
  cases result with
  | none => exact ⟨fun e h => (by cases h), rfl⟩
  | some dst =>
    refine ⟨fun e h => ?_, rfl⟩
    simp only [decodeResult] at h
    cases hd : (um b dst).2 <;> rw [hd] at h <;> cases h

/-- Witness of C8 amended: a success payload without an `errors` field, and the body `null`. -/
theorem envelope_accepts_object_witness :
    (NewClient "http://db" "t").GraphQL
        (Env.answering 200 "\x7b\"data\":\x7b\"a\":1\x7d\x7d") unmarshalRawMessage ⟨none⟩
        (bytesOf "q") none
      = ⟨none, none,
          some (Op.GraphQL.request (Env.answering 200 "\x7b\"data\":\x7b\"a\":1\x7d\x7d")
            (NewClient "http://db" "t") ⟨none⟩ (bytesOf "q")),
          [.readAll, .unmarshalEnvelope]⟩
    ∧ ((NewClient "http://db" "t").DQL (Env.answering 200 "null") unmarshalRawMessage ⟨none⟩
        (bytesOf "q") none).err = none :=
  ⟨(envelope_accepts_object Op.GraphQL (Env.answering 200 "\x7b\"data\":\x7b\"a\":1\x7d\x7d")
      unmarshalRawMessage (NewClient "http://db" "t") ⟨none⟩ (bytesOf "q") none _
      ⟨200, .ok "\x7b\"data\":\x7b\"a\":1\x7d\x7d"⟩ _ rfl rfl rfl rfl rfl
      (Or.inr ⟨[("data", .obj [("a", .num "1")])], rfl, fun kv hm hk => by
        rw [List.mem_singleton] at hm
        subst hm
        exact absurd hk (by decide)⟩)).2,
    congrArg Outcome.err
      (envelope_accepts_object Op.DQL (Env.answering 200 "null") unmarshalRawMessage
        (NewClient "http://db" "t") ⟨none⟩ (bytesOf "q") none _ ⟨200, .ok "null"⟩ _
        rfl rfl rfl rfl rfl (Or.inl rfl)).2⟩

/-- A body the envelope decode rejects: on a status-200 answer whose
body the envelope decode reports an error for, GraphQL, DQL and RawQuery return that error,
leave the destination as it was and make no result decode. -/
theorem envelope_error_returned {σ : Type} (op : Op) (env : Env) (um : Unmarshal σ)
    (c : Client) (ctx : Context) (q : Bytes) (result : Option σ) (req : HTTPRequest)
    (resp : Response) (b : String) (er : errorResponse) (e : JSONError)
    (hop : op.checksEnvelope = true)
    (hsent : (op.run env um c ctx q result).sent = some req)
    (hresp : env.roundTrip req = .ok resp) (hcode : resp.StatusCode = 200)
    (hbody : resp.Body = .ok b)
    (henv : unmarshalErrorResponse b { Errors := [] } = (er, some e)) :
    op.run env um c ctx q result
      = ⟨some (.envelope e), result, some req, [.readAll, .unmarshalEnvelope]⟩ := by
  rw [Op.run_of_sent hsent, hresp, respond_ok_200 _ _ _ _ b _ hcode hbody, hop]
  simp only [ite_true, checkEnvelope, henv]

/-- C6: for a client built by `NewClient endpoint token`, whenever the URL parses (so that a
request is built at all), the request handed to the transport is a POST, to
`endpoint ++ "/graphql"` with Content-Type application/json for GraphQL, to
`endpoint ++ "/query"` with Content-Type application/dql for DQL, and to
`endpoint ++ "/mutate?commitNow=true"` with Content-Type application/rdf for RDF; in each the
only other header is Dg-Auth with the token as its value. -/
theorem request_line_and_headers {σ : Type} (env : Env) (um : Unmarshal σ)
    (endpoint token : String) (ctx : Context) (q : Bytes) (result : Option σ) :
    (env.urlError (endpoint ++ "/graphql") = none →
        ((NewClient endpoint token).GraphQL env um ctx q result).sent.map
            (fun r => (r.Method, r.URL, r.Header))
          = some ("POST", endpoint ++ "/graphql",
              [("Content-Type", "application/json"), ("Dg-Auth", token)]))
      ∧ (env.urlError (endpoint ++ "/query") = none →
        ((NewClient endpoint token).DQL env um ctx q result).sent.map
            (fun r => (r.Method, r.URL, r.Header))
          = some ("POST", endpoint ++ "/query",
              [("Content-Type", "application/dql"), ("Dg-Auth", token)]))
      ∧ (env.urlError (endpoint ++ "/mutate?commitNow=true") = none →
        ((NewClient endpoint token).RDF env um ctx q result).sent.map
            (fun r => (r.Method, r.URL, r.Header))
          = some ("POST", endpoint ++ "/mutate?commitNow=true",
              [("Content-Type", "application/rdf"), ("Dg-Auth", token)])) := by
  refine ⟨fun h => ?_, fun h => ?_, fun h => ?_⟩
  · have := Op.sent_eq .GraphQL env um (NewClient endpoint token) ctx q result
    simp only [Op.run, Op.url, NewClient, h] at this
    simp only [NewClient, this]; rfl
  · have := Op.sent_eq .DQL env um (NewClient endpoint token) ctx q result
    simp only [Op.run, Op.url, NewClient, h] at this
    simp only [NewClient, this]; rfl
  · have := Op.sent_eq .RDF env um (NewClient endpoint token) ctx q result
    simp only [Op.run, Op.url, NewClient, h] at this
    simp only [NewClient, this]; rfl

/-- Witness of C6 at the endpoint "http://db" and the token "secret". -/
theorem request_line_and_headers_witness :
    ((NewClient "http://db" "secret").GraphQL (Env.answering 200 "null") unmarshalRawMessage
        ⟨none⟩ (bytesOf "q") none).sent.map (fun r => (r.Method, r.URL, r.Header))
      = some ("POST", "http://db/graphql",
          [("Content-Type", "application/json"), ("Dg-Auth", "secret")])
    ∧ ((NewClient "http://db" "secret").DQL (Env.answering 200 "null") unmarshalRawMessage
        ⟨none⟩ (bytesOf "q") none).sent.map (fun r => (r.Method, r.URL, r.Header))
      = some ("POST", "http://db/query",
          [("Content-Type", "application/dql"), ("Dg-Auth", "secret")])
    ∧ ((NewClient "http://db" "secret").RDF (Env.answering 200 "null") unmarshalRawMessage
        ⟨none⟩ (bytesOf "q") none).sent.map (fun r => (r.Method, r.URL, r.Header))
      = some ("POST", "http://db/mutate?commitNow=true",
          [("Content-Type", "application/rdf"), ("Dg-Auth", "secret")]) :=
  have h := request_line_and_headers (Env.answering 200 "null") unmarshalRawMessage
    "http://db" "secret" ⟨none⟩ (bytesOf "q") none
  ⟨h.1 rfl, h.2.1 rfl, h.2.2 rfl⟩

/-- C9: `ClientTimeout` is 20 seconds, and for GraphQL, DQL and RDF, whenever a request is
built, the deadline of its context is the earlier of the caller's deadline and the time of the
call plus `ClientTimeout`: the caller's deadline when that is less than 20 seconds away, and
exactly 20 seconds from the call when the caller's deadline is 20 seconds away or more, or
absent. -/
theorem request_deadline {σ : Type} (op : Op) (env : Env) (um : Unmarshal σ) (c : Client)
    (ctx : Context) (q : Bytes) (result : Option σ)
    (hop : op ≠ .RawQuery) (hurl : env.urlError (op.url c) = none) :
    ClientTimeout = 20 * 1000000000
      ∧ ∃ req, (op.run env um c ctx q result).sent = some req
        ∧ req.ctx.deadline
            = some (match ctx.deadline with
                | some d => min d (env.now + ClientTimeout)
                | none => env.now + ClientTimeout)
        ∧ (∀ d, ctx.deadline = some d → d - env.now < ClientTimeout →
            req.ctx.deadline = some d)
        ∧ (∀ d, ctx.deadline = some d → ClientTimeout ≤ d - env.now →
            req.ctx.deadline = some (env.now + ClientTimeout))
        ∧ (ctx.deadline = none → req.ctx.deadline = some (env.now + ClientTimeout)) := by
  refine ⟨rfl, op.request env c ctx q, ?_, ?_⟩
  · rw [Op.sent_eq, hurl]
  · have hctx : (op.request env c ctx q).ctx = withTimeout env.now ctx ClientTimeout := by
      cases op
      · rfl
      · rfl
      · rfl
      · exact absurd rfl hop
    rw [hctx]
    cases hd : ctx.deadline with
    | none =>
      simp [withTimeout, hd]
    | some d =>
      by_cases hlt : d < env.now + ClientTimeout
      · have hmin : min d (env.now + ClientTimeout) = d := min_eq_left (le_of_lt hlt)
        simp only [withTimeout, hd, hlt, ite_true, hmin, Option.some.injEq, true_and,
          reduceCtorEq, false_implies, and_true]
        refine ⟨fun d2 h2 _ => h2, fun d2 h2 hge => ?_⟩
        subst h2; omega
      · have hmin : min d (env.now + ClientTimeout) = env.now + ClientTimeout :=
          min_eq_right (not_lt.mp hlt)
        simp only [withTimeout, hd, hlt, ite_false, hmin, Option.some.injEq, true_and,
          reduceCtorEq, false_implies, and_true, implies_true]
        intro d2 h2 hlt2
        subst h2; omega

/-- Witness of C9: a caller deadline 5 seconds after the call is the deadline of the request
of a DQL call made at time 0. -/
theorem request_deadline_witness :
    ∃ req, ((NewClient "http://db" "t").DQL (Env.answering 200 "null") unmarshalRawMessage
        ⟨some 5000000000⟩ (bytesOf "q") none).sent = some req
      ∧ req.ctx.deadline = some 5000000000 :=
  have h := (request_deadline Op.DQL (Env.answering 200 "null") unmarshalRawMessage
    (NewClient "http://db" "t") ⟨some 5000000000⟩ (bytesOf "q") none (by decide) rfl).2
  h.elim (fun req hr => ⟨req, hr.1, hr.2.2.1 5000000000 rfl (by decide)⟩)

theorem decodeResult_frame {σ : Type} (um : Unmarshal σ) (b : String) (result : Option σ)
    (req : HTTPRequest) (calls : List Call) (hcalls : Call.unmarshalResult ∉ calls) :
    (∀ t, (decodeResult um b result req calls).err = some (.status t) →
        (decodeResult um b result req calls).result = result)
      ∧ (∀ e, (decodeResult um b result req calls).err = some (.envelope e) →
        (decodeResult um b result req calls).result = result)
      ∧ (∀ t, (decodeResult um b result req calls).err = some (.server t) →
        (decodeResult um b result req calls).result = result)
      ∧ (Call.unmarshalResult ∉ (decodeResult um b result req calls).calls →
        (decodeResult um b result req calls).result = result)
      ∧ (Call.unmarshalResult ∈ (decodeResult um b result req calls).calls →
        ∃ dst, result = some dst
          ∧ (decodeResult um b result req calls).result = some (um b dst).1) := by
  cases result with
  | none =>
    simp only [decodeResult, implies_true, true_and]
    exact fun h => absurd h hcalls
  | some dst =>
    simp only [decodeResult]
    refine ⟨fun t h => ?_, fun e h => ?_, fun t h => ?_, fun h => ?_, fun _ => ⟨dst, rfl, rfl⟩⟩
    · cases hd : (um b dst).2 <;> rw [hd] at h <;> cases h
    · cases hd : (um b dst).2 <;> rw [hd] at h <;> cases h
    · cases hd : (um b dst).2 <;> rw [hd] at h <;> cases h
    · exact absurd (List.mem_append_right _ (List.mem_singleton.mpr rfl)) h

theorem respond_frame {σ : Type} (checks : Bool) (um : Unmarshal σ) (req : HTTPRequest)
    (answer : Except String Response) (result : Option σ) :
    (∀ t, (respond checks um req answer result).err = some (.status t) →
        (respond checks um req answer result).result = result)
      ∧ (∀ e, (respond checks um req answer result).err = some (.envelope e) →
        (respond checks um req answer result).result = result)
      ∧ (∀ t, (respond checks um req answer result).err = some (.server t) →
        (respond checks um req answer result).result = result)
      ∧ (Call.unmarshalResult ∉ (respond checks um req answer result).calls →
        (respond checks um req answer result).result = result)
      ∧ (Call.unmarshalResult ∈ (respond checks um req answer result).calls →
        ∃ resp b dst,
          answer = .ok resp ∧ resp.StatusCode = 200 ∧ resp.Body = .ok b
            ∧ (checks = true →
                unmarshalErrorResponse b { Errors := [] } = ({ Errors := [] }, none))
            ∧ result = some dst
            ∧ (respond checks um req answer result).result = some (um b dst).1) := by
  cases answer with
  | error e => simp [respond]
  | ok resp =>
    by_cases hcode : resp.StatusCode = 200
    · cases hbody : resp.Body with
      | error e => simp [respond, hcode, hbody]
      | ok b =>
        rw [respond_ok_200 checks um req resp b result hcode hbody]
        cases checks with
        | false =>
          obtain ⟨h1, h2, h3, h4, h5⟩ :=
            decodeResult_frame um b result req [.readAll] (by decide)
          refine ⟨h1, h2, h3, h4, fun h => ?_⟩
          obtain ⟨dst, hd, hr⟩ := h5 h
          exact ⟨resp, b, dst, rfl, hcode, hbody, fun hc => (by cases hc), hd, hr⟩
        | true =>
          simp only [ite_true]
          rcases henv : unmarshalErrorResponse b { Errors := [] } with ⟨⟨errors⟩, err⟩
          cases err with
          | some e => simp [checkEnvelope, henv]
          | none =>
            cases errors with
            | cons e0 rest => simp [checkEnvelope, henv]
            | nil =>
              rw [checkEnvelope_pass um b result req henv]
              obtain ⟨h1, h2, h3, h4, h5⟩ :=
                decodeResult_frame um b result req [.readAll, .unmarshalEnvelope] (by decide)
              refine ⟨h1, h2, h3, h4, fun h => ?_⟩
              obtain ⟨dst, hd, hr⟩ := h5 h
              exact ⟨resp, b, dst, rfl, hcode, hbody, fun _ => henv, hd, hr⟩
    · simp [respond, hcode]

/-- C10: in each of GraphQL, DQL, RDF and RawQuery, a call that returns a status error, an
error of the envelope decode or a server-reported error leaves the destination as it was; so
does every call that makes no result decode; and a result decode is made only after a request
was answered with status 200, the body was read, the envelope check (where the entry point has
one) found no entries, and the destination is not nil, in which case the destination is what
that decode leaves. -/
theorem destination_frame {σ : Type} (op : Op) (env : Env) (um : Unmarshal σ) (c : Client)
    (ctx : Context) (q : Bytes) (result : Option σ) :
    (∀ t, (op.run env um c ctx q result).err = some (.status t) →
        (op.run env um c ctx q result).result = result)
      ∧ (∀ e, (op.run env um c ctx q result).err = some (.envelope e) →
        (op.run env um c ctx q result).result = result)
      ∧ (∀ t, (op.run env um c ctx q result).err = some (.server t) →
        (op.run env um c ctx q result).result = result)
      ∧ (Call.unmarshalResult ∉ (op.run env um c ctx q result).calls →
        (op.run env um c ctx q result).result = result)
      ∧ (Call.unmarshalResult ∈ (op.run env um c ctx q result).calls →
        ∃ req resp b dst,
          (op.run env um c ctx q result).sent = some req
            ∧ env.roundTrip req = .ok resp ∧ resp.StatusCode = 200 ∧ resp.Body = .ok b
            ∧ (op.checksEnvelope = true →
                unmarshalErrorResponse b { Errors := [] } = ({ Errors := [] }, none))
            ∧ result = some dst
            ∧ (op.run env um c ctx q result).result = some (um b dst).1) := by
  rw [Op.run_eq]
  cases hu : env.urlError (op.url c) with
  | some e => simp
  | none =>
    obtain ⟨h1, h2, h3, h4, h5⟩ := respond_frame op.checksEnvelope um
      (op.request env c ctx q) (env.roundTrip (op.request env c ctx q)) result
    refine ⟨h1, h2, h3, h4, fun h => ?_⟩
    obtain ⟨resp, b, dst, ha, hc, hb, he, hd, hr⟩ := h5 h
    exact ⟨op.request env c ctx q, resp, b, dst, respond_sent .., ha, hc, hb, he, hd, hr⟩

/-- An instance of C10: a GraphQL call answered with a server-reported error leaves the
destination, here a `*json.RawMessage` holding `7`, as it was. -/
theorem destination_frame_witness :
    ((NewClient "http://db" "t").GraphQL
        (Env.answering 200 "\x7b\"errors\":[\x7b\"message\":\"X\"\x7d]\x7d")
        unmarshalRawMessage ⟨none⟩ (bytesOf "q") (some "7")).result = some "7" :=
  (destination_frame Op.GraphQL
    (Env.answering 200 "\x7b\"errors\":[\x7b\"message\":\"X\"\x7d]\x7d")
    unmarshalRawMessage (NewClient "http://db" "t") ⟨none⟩ (bytesOf "q") (some "7")).2.2.1 "X" rfl

/-! ## The body of a GraphQL call parses back to the query -/

theorem lex_cons (st : LexState) (toks : List Token) (c : Char) (cs : List Char) :
    lex st toks (c :: cs) =
      match lexStep st c with
      | .ok (st2, new) => lex st2 (new ++ toks) cs
      | .error e => .error e := by
  cases st <;> rfl

/-- A character below U+0020 is one of thirty-two. -/
theorem char_lt_32 (c : Char) (h : c.toNat < 32) :
    ∃ k, k < 32 ∧ c = Char.ofNat k :=
  ⟨c.toNat, h, (Char.ofNat_toNat c).symm⟩

/-- The scanner, inside a string literal, reads what `escapeChar` writes for a character as
one unit. -/
theorem lex_escapeChar (c : Char) (acc : List StrUnit) (toks : List Token) (rest : List Char) :
    lex (.inStr acc) toks (escapeChar c ++ rest) = lex (.inStr (unitOf c :: acc)) toks rest := by
  by_cases h32 : c.toNat < 32
  · obtain ⟨k, hk, rfl⟩ := char_lt_32 c h32
    interval_cases k <;> rfl
  by_cases h1 : c = '"'
  · subst h1; rfl
  by_cases h2 : c = '\\'
  · subst h2; rfl
  by_cases h3 : c = '<'
  · subst h3; rfl
  by_cases h4 : c = '>'
  · subst h4; rfl
  by_cases h5 : c = '&'
  · subst h5; rfl
  by_cases h6 : c = Char.ofNat 0x2028
  · subst h6; rfl
  by_cases h7 : c = Char.ofNat 0x2029
  · subst h7; rfl
  have e8 : c ≠ Char.ofNat 8 := fun h => h32 (by subst h; decide)
  have e12 : c ≠ Char.ofNat 12 := fun h => h32 (by subst h; decide)
  have e10 : c ≠ '\n' := fun h => h32 (by subst h; decide)
  have e13 : c ≠ '\r' := fun h => h32 (by subst h; decide)
  have e9 : c ≠ '\t' := fun h => h32 (by subst h; decide)
  have hesc : escapeChar c = [c] := by
    simp [escapeChar, h1, h2, h3, h4, h5, h6, h7, e8, e12, e10, e13, e9, h32]
  have hunit : unitOf c = .chr c := by
    simp only [unitOf, hesc]
  rw [hesc, hunit, List.singleton_append, lex_cons]
  simp [lexStep, h1, h2, h32]

theorem decodeUnits_esc (n : Nat) (h : n < 0xD800 ∨ 0xE000 ≤ n) (rest : List StrUnit) :
    decodeUnits (.esc n :: rest) = Char.ofNat n :: decodeUnits rest := by
  cases rest with
  | nil => simp only [decodeUnits]; rw [if_neg (by omega)]
  | cons u rest =>
    cases u with
    | chr c => simp only [decodeUnits]; rw [if_neg (by omega)]
    | esc lo => simp only [decodeUnits]; rw [if_neg (by omega), if_neg (by omega)]

/-- The unit of a character is the character itself, or an escape of its code point, which is
then no surrogate. -/
theorem unitOf_cases (c : Char) :
    unitOf c = .chr c ∨ (unitOf c = .esc c.toNat ∧ c.toNat < 0xD800) := by
  by_cases h32 : c.toNat < 32
  · obtain ⟨k, hk, rfl⟩ := char_lt_32 c h32
    interval_cases k <;> first | exact Or.inl rfl | exact Or.inr ⟨rfl, by decide⟩
  by_cases h1 : c = '"'
  · subst h1; exact Or.inl rfl
  by_cases h2 : c = '\\'
  · subst h2; exact Or.inl rfl
  by_cases h3 : c = '<'
  · subst h3; exact Or.inr ⟨rfl, by decide⟩
  by_cases h4 : c = '>'
  · subst h4; exact Or.inr ⟨rfl, by decide⟩
  by_cases h5 : c = '&'
  · subst h5; exact Or.inr ⟨rfl, by decide⟩
  by_cases h6 : c = Char.ofNat 0x2028
  · subst h6; exact Or.inr ⟨rfl, by decide⟩
  by_cases h7 : c = Char.ofNat 0x2029
  · subst h7; exact Or.inr ⟨rfl, by decide⟩
  have e8 : c ≠ Char.ofNat 8 := fun h => h32 (by subst h; decide)
  have e12 : c ≠ Char.ofNat 12 := fun h => h32 (by subst h; decide)
  have e10 : c ≠ '\n' := fun h => h32 (by subst h; decide)
  have e13 : c ≠ '\r' := fun h => h32 (by subst h; decide)
  have e9 : c ≠ '\t' := fun h => h32 (by subst h; decide)
  have hesc : escapeChar c = [c] := by
    simp [escapeChar, h1, h2, h3, h4, h5, h6, h7, e8, e12, e10, e13, e9, h32]
  left
  simp only [unitOf, hesc]

/-- The scanner, inside a string literal, reads what `escapeRune` writes for a rune as one
unit. -/
theorem lex_escapeRune (r : Char × Nat) (acc : List StrUnit) (toks : List Token)
    (rest : List Char) :
    lex (.inStr acc) toks (escapeRune r ++ rest)
      = lex (.inStr (unitOfRune r :: acc)) toks rest := by
  unfold escapeRune unitOfRune
  split
  · rfl
  · exact lex_escapeChar r.1 acc toks rest

/-- The units read back for the runes of a byte string decode to the runes. -/
theorem decodeUnits_unitOfRune (rs : List (Char × Nat)) :
    decodeUnits (rs.map unitOfRune) = rs.map (fun r => r.1) := by
  induction rs with
  | nil => rfl
  | cons r rs ih =>
    rw [List.map_cons, List.map_cons]
    by_cases h : (r.1 == RuneError && r.2 == 1) = true
    · have hu : unitOfRune r = .esc 0xFFFD := by simp only [unitOfRune, h, ite_true]
      have hr : r.1 = RuneError := by
        simp only [Bool.and_eq_true, beq_iff_eq] at h
        exact h.1
      rw [hu, decodeUnits_esc _ (Or.inr (by decide)), ih, hr]
      rfl
    · have hu : unitOfRune r = unitOf r.1 := by
        simp only [unitOfRune, h, Bool.false_eq_true, ite_false]
      rw [hu]
      rcases unitOf_cases r.1 with h1 | ⟨h1, hlt⟩
      · rw [h1]; simp only [decodeUnits, ih]
      · rw [h1, decodeUnits_esc _ (Or.inl hlt), ih, Char.ofNat_toNat]

/-- The scanner reads the content of a string literal written by `marshalString`, up to the
closing quote, as one string token, and goes on after the quote. -/
theorem lex_string_body (rs : List (Char × Nat)) (acc : List StrUnit) (toks : List Token)
    (rest : List Char) :
    lex (.inStr acc) toks (rs.flatMap escapeRune ++ '"' :: rest)
      = lex .start (strToken ((rs.map unitOfRune).reverse ++ acc) :: toks) rest := by
  induction rs generalizing acc with
  | nil => rfl
  | cons r rs ih =>
    rw [List.flatMap_cons, List.append_assoc, lex_escapeRune, ih]
    simp only [List.map_cons, List.reverse_cons, List.append_assoc, List.singleton_append]

/-- The tokens of a string literal written by `marshalString`, followed by anything: one
string token, whose text is the byte string as `encoding/json` reads it. -/
theorem lex_marshalString (s : Bytes) (toks : List Token) (rest : List Char) :
    lex .start toks (marshalString s ++ rest)
      = lex .start (.str (toValidText s) :: toks) rest := by
  have h : marshalString s ++ rest
      = '"' :: ((runes 0 s).flatMap escapeRune ++ '"' :: rest) := by
    simp [marshalString]
  rw [h, lex_cons]
  show lex (.inStr []) toks ((runes 0 s).flatMap escapeRune ++ '"' :: rest) = _
  rw [lex_string_body]
  simp only [List.append_nil, strToken, List.reverse_reverse, decodeUnits_unitOfRune,
    toValidText]

/-! ### UTF-8: decoding the bytes of a text gives the text back -/

theorem toNat_ofNat_byte (x : Nat) (h : x < 256) : (UInt8.ofNat x).toNat = x :=
  UInt8.toNat_ofNat_of_lt h

theorem decodeRune_encodeRune (c : Char) (rest : Bytes) :
    decodeRune (encodeRune c ++ rest) = (c, (encodeRune c).length) := by
  have hv := c.valid
  have hc : Char.ofNat c.toNat = c := Char.ofNat_toNat c
  generalize hn : c.toNat = n at hc
  have hvalid : n < 0xD800 ∨ (0xDFFF < n ∧ n < 0x110000) := by
    rw [← hn]; exact hv
  unfold encodeRune
  rw [hn]
  by_cases h1 : n < 0x80
  · rw [if_pos h1]
    simp only [List.cons_append, List.nil_append, decodeRune,
      toNat_ofNat_byte n (by omega), h1, ite_true, hc, List.length_singleton]
  rw [if_neg h1]
  by_cases h2 : n < 0x800
  · rw [if_pos h2]
    have e0 := toNat_ofNat_byte (0xC0 + n / 64) (by omega)
    have e1 := toNat_ofNat_byte (0x80 + n % 64) (by omega)
    simp only [List.cons_append, List.nil_append, decodeRune, isCont, e0, e1, List.length_cons,
      List.length_nil]
    rw [if_neg (by omega), if_neg (by omega), if_pos (by omega), if_pos (by simp; omega)]
    rw [show (0xC0 + n / 64 - 0xC0) * 64 + (0x80 + n % 64 - 0x80) = n by omega, hc]
  rw [if_neg h2]
  by_cases h3 : n < 0x10000
  · rw [if_pos h3]
    have e0 := toNat_ofNat_byte (0xE0 + n / 4096) (by omega)
    have e1 := toNat_ofNat_byte (0x80 + n / 64 % 64) (by omega)
    have e2 := toNat_ofNat_byte (0x80 + n % 64) (by omega)
    simp only [List.cons_append, List.nil_append, decodeRune, isCont, e0, e1, e2,
      List.length_cons, List.length_nil]
    rw [if_neg (by omega), if_neg (by omega), if_neg (by omega), if_pos (by omega)]
    rw [if_pos (by
      simp only [decide_eq_true_eq]
      refine ⟨?_, ?_, ?_⟩
      · split <;> omega
      · split <;> omega
      · omega)]
    rw [show ((0xE0 + n / 4096 - 0xE0) * 64 + (0x80 + n / 64 % 64 - 0x80)) * 64
        + (0x80 + n % 64 - 0x80) = n by omega, hc]
  rw [if_neg h3]
  have e0 := toNat_ofNat_byte (0xF0 + n / 262144) (by omega)
  have e1 := toNat_ofNat_byte (0x80 + n / 4096 % 64) (by omega)
  have e2 := toNat_ofNat_byte (0x80 + n / 64 % 64) (by omega)
  have e3 := toNat_ofNat_byte (0x80 + n % 64) (by omega)
  simp only [List.cons_append, List.nil_append, decodeRune, isCont, e0, e1, e2, e3,
    List.length_cons, List.length_nil]
  rw [if_neg (by omega), if_neg (by omega), if_neg (by omega), if_neg (by omega),
    if_pos (by omega)]
  rw [if_pos (by
    simp only [decide_eq_true_eq]
    refine ⟨?_, ?_, ?_, ?_⟩
    · split <;> omega
    · split <;> omega
    · omega
    · omega)]
  rw [show (((0xF0 + n / 262144 - 0xF0) * 64 + (0x80 + n / 4096 % 64 - 0x80)) * 64
      + (0x80 + n / 64 % 64 - 0x80)) * 64 + (0x80 + n % 64 - 0x80) = n by omega, hc]

theorem encodeRune_length_pos (c : Char) : 1 ≤ (encodeRune c).length := by
  unfold encodeRune
  split
  · simp
  · split
    · simp
    · split <;> simp

theorem runes_skip (xs rest : Bytes) : runes xs.length (xs ++ rest) = runes 0 rest := by
  induction xs with
  | nil => rfl
  | cons x xs ih => simpa [runes] using ih

/-- The runes of the bytes of a text are its characters. -/
theorem runes_bytesOf (cs : List Char) (rest : Bytes) :
    runes 0 (cs.flatMap encodeRune ++ rest)
      = cs.map (fun c => (c, (encodeRune c).length)) ++ runes 0 rest := by
  induction cs with
  | nil => rfl
  | cons c cs ih =>
    have hd := decodeRune_encodeRune c (cs.flatMap encodeRune ++ rest)
    have hpos := encodeRune_length_pos c
    rw [List.flatMap_cons, List.append_assoc]
    cases he : encodeRune c with
    | nil => rw [he] at hpos; simp at hpos
    | cons b bs =>
      rw [he] at hd
      simp only [List.cons_append] at hd ⊢
      simp only [runes, hd, List.length_cons, Nat.add_sub_cancel, List.map_cons, he,
        List.cons_append]
      rw [runes_skip, ih]


/-- A byte string that is the UTF-8 form of a text reads as that text. -/
theorem toValidText_bytesOf (s : String) : toValidText (bytesOf s) = s := by
  have h := runes_bytesOf s.data []
  simp only [List.append_nil, runes] at h
  simp only [toValidText, bytesOf, h, List.map_map]
  have hid : (fun r : Char × Nat => r.1) ∘ (fun c => (c, (encodeRune c).length)) = id := rfl
  rw [hid, List.map_id]

/-- Parsing the text `json.Marshal` writes for a `Request` gives an object whose `query`
member is the query string as `encoding/json` reads it. -/
theorem parseJSON_marshalRequestText (q : Bytes) :
    parseJSON (marshalRequestText { Query := q })
      = .ok (.obj [("query", .str (toValidText q)), ("variables", .null)]) := by
  have h1 : (marshalRequestText { Query := q }).data
      = '{' :: '"' :: 'q' :: 'u' :: 'e' :: 'r' :: 'y' :: '"' :: ':' ::
          (marshalString q ++ ",\"variables\":null\x7d".data) := by
    simp [marshalRequestText]
  have h2 : lex .start [] (marshalRequestText { Query := q }).data
      = lex .start [.colon, .str "query", .lbrace]
          (marshalString q ++ ",\"variables\":null\x7d".data) := by
    rw [h1]; rfl
  simp only [parseJSON, h2, lex_marshalString]
  rfl

/-- Parsing the text `json.Marshal` writes for a `request` of `dgraphql.go`. -/
theorem parseJSON_marshalrequestText (q : Bytes) :
    parseJSON (marshalrequestText { Query := q })
      = .ok (.obj [("query", .str (toValidText q))]) := by
  have h1 : (marshalrequestText { Query := q }).data
      = '{' :: '"' :: 'q' :: 'u' :: 'e' :: 'r' :: 'y' :: '"' :: ':' ::
          (marshalString q ++ "\x7d".data) := by
    simp [marshalrequestText]
  have h2 : lex .start [] (marshalrequestText { Query := q }).data
      = lex .start [.colon, .str "query", .lbrace] (marshalString q ++ "\x7d".data) := by
    rw [h1]; rfl
  simp only [parseJSON, h2, lex_marshalString]
  rfl

/-- Parsing the bytes `json.Marshal` returns for a `Request`. -/
theorem parseJSONBytes_marshalRequest (q : Bytes) :
    parseJSONBytes (marshalRequest { Query := q })
      = .ok (.obj [("query", .str (toValidText q)), ("variables", .null)]) := by
  rw [parseJSONBytes, marshalRequest, toValidText_bytesOf, parseJSON_marshalRequestText]

/-- Parsing the bytes `json.Marshal` returns for a `request`. -/
theorem parseJSONBytes_marshalrequest (q : Bytes) :
    parseJSONBytes (marshalrequest { Query := q })
      = .ok (.obj [("query", .str (toValidText q))]) := by
  rw [parseJSONBytes, marshalrequest, toValidText_bytesOf, parseJSON_marshalrequestText]

/-- C7, as stated, fails: GraphQL is called with the query string of the one byte 0xFF, which
is not valid UTF-8.  The body sent is `{"query":"\ufffd","variables":null}`; parsing it as
JSON gives an object whose value under `query` is the character U+FFFD, of bytes EF BF BD,
which is not the query string. -/
theorem invalid_utf8_query_replaced :
    ((NewClient "http://db" "t").GraphQL (Env.answering 200 "null") unmarshalRawMessage ⟨none⟩
        [0xFF] none).sent.map (fun r => r.Body)
      = some (bytesOf "\x7b\"query\":\"\\ufffd\",\"variables\":null\x7d")
    ∧ parseJSONBytes (bytesOf "\x7b\"query\":\"\\ufffd\",\"variables\":null\x7d")
      = .ok (.obj [("query", .str (String.mk [Char.ofNat 0xFFFD])), ("variables", .null)])
    ∧ bytesOf (String.mk [Char.ofNat 0xFFFD]) = [0xEF, 0xBF, 0xBD]
    ∧ bytesOf (String.mk [Char.ofNat 0xFFFD]) ≠ [0xFF] :=
  ⟨by decide, by rw [parseJSONBytes, toValidText_bytesOf]; rfl, by decide, by decide⟩

/-- C7, amended: the body GraphQL sends is `json.Marshal` of the `Request` whose `Query` is
`q`; parsing it as JSON gives an object whose value under the key `query` is `q` read as
UTF-8 with U+FFFD for every byte that begins no valid sequence, so it is the string `q` for
every `q` that is valid UTF-8 (the bytes of a text `s`); the bodies DQL and RDF send are the
bytes of `q` itself, for every `q`. -/
theorem request_bodies {σ : Type} (env : Env) (um : Unmarshal σ) (c : Client) (ctx : Context)
    (q : Bytes) (result : Option σ) :
    (env.urlError (c.url ++ "/graphql") = none →
        (c.GraphQL env um ctx q result).sent.map (fun r => r.Body)
          = some (marshalRequest { Query := q }))
      ∧ parseJSONBytes (marshalRequest { Query := q })
          = .ok (.obj [("query", .str (toValidText q)), ("variables", .null)])
      ∧ (∀ s : String, q = bytesOf s →
          parseJSONBytes (marshalRequest { Query := q })
            = .ok (.obj [("query", .str s), ("variables", .null)]))
      ∧ (env.urlError (c.url ++ "/query") = none →
          (c.DQL env um ctx q result).sent.map (fun r => r.Body) = some q)
      ∧ (env.urlError (c.url ++ "/mutate?commitNow=true") = none →
          (c.RDF env um ctx q result).sent.map (fun r => r.Body) = some q) := by
  refine ⟨fun h => ?_, parseJSONBytes_marshalRequest q, fun s hs => ?_, fun h => ?_,
    fun h => ?_⟩
  · have := Op.sent_eq .GraphQL env um c ctx q result
    simp only [Op.run, Op.url, h] at this
    rw [this]; rfl
  · rw [parseJSONBytes_marshalRequest, hs, toValidText_bytesOf]
  · have := Op.sent_eq .DQL env um c ctx q result
    simp only [Op.run, Op.url, h] at this
    rw [this]; rfl
  · have := Op.sent_eq .RDF env um c ctx q result
    simp only [Op.run, Op.url, h] at this
    rw [this]; rfl

/-- Witness of C7 amended at a query with a quote, a line break, an angle bracket and a
character of two bytes. -/
theorem request_bodies_witness :
    ((NewClient "http://db" "t").GraphQL (Env.answering 200 "null") unmarshalRawMessage ⟨none⟩
        (bytesOf "\x7b q(f: \"a<\u00e9\")\n\x7d") none).sent.map (fun r => r.Body)
      = some (marshalRequest { Query := bytesOf "\x7b q(f: \"a<\u00e9\")\n\x7d" })
    ∧ marshalRequestText { Query := bytesOf "\x7b q(f: \"a<\u00e9\")\n\x7d" }
      = "\x7b\"query\":\"\x7b q(f: \\\"a\\u003c\u00e9\\\")\\n\x7d\",\"variables\":null\x7d"
    ∧ parseJSONBytes (marshalRequest { Query := bytesOf "\x7b q(f: \"a<\u00e9\")\n\x7d" })
      = .ok (.obj [("query", .str "\x7b q(f: \"a<\u00e9\")\n\x7d"), ("variables", .null)])
    ∧ ((NewClient "http://db" "t").DQL (Env.answering 200 "null") unmarshalRawMessage ⟨none⟩
        (bytesOf "\x7b q(f: \"a<\u00e9\")\n\x7d") none).sent.map (fun r => r.Body)
      = some (bytesOf "\x7b q(f: \"a<\u00e9\")\n\x7d")
    ∧ ((NewClient "http://db" "t").RDF (Env.answering 200 "null") unmarshalRawMessage ⟨none⟩
        (bytesOf "\x7b q(f: \"a<\u00e9\")\n\x7d") none).sent.map (fun r => r.Body)
      = some (bytesOf "\x7b q(f: \"a<\u00e9\")\n\x7d") :=
  have h := request_bodies (Env.answering 200 "null") unmarshalRawMessage
    (NewClient "http://db" "t") ⟨none⟩ (bytesOf "\x7b q(f: \"a<\u00e9\")\n\x7d") none
  ⟨h.1 rfl, by decide, h.2.2.1 _ rfl, h.2.2.2.1 rfl, h.2.2.2.2 rfl⟩

/-! ## `doPrintf` never runs out of fuel -/

theorem skipFlags_length (cs : List Char) : (skipFlags cs).length ≤ cs.length := by
  induction cs with
  | nil => exact Nat.le_refl _
  | cons c cs ih =>
    simp only [skipFlags]
    split
    · exact Nat.le_succ_of_le ih
    · exact Nat.le_refl _

theorem parsenum_length (cs : List Char) (num : Nat) (isnum : Bool) :
    (parsenum cs num isnum).2.2.length ≤ cs.length := by
  induction cs generalizing num isnum with
  | nil => exact Nat.le_refl _
  | cons c cs ih =>
    simp only [parsenum]
    split
    · split
      · exact Nat.zero_le _
      · exact Nat.le_succ_of_le (ih _ _)
    · exact Nat.le_refl _

theorem argNumber_length (cs : List Char) (good : Bool) :
    (argNumber cs good).1.length ≤ cs.length := by
  unfold argNumber
  split
  · next rest =>
    by_cases h2 : rest.length < 2
    · rw [if_pos h2]; exact Nat.le_succ _
    · rw [if_neg h2]
      by_cases hin : (rest.takeWhile (· != ']')).length < rest.length
      · simp only [hin, ite_true, List.length_drop, List.length_cons]; omega
      · simp only [hin, ite_false]; exact Nat.le_succ _
  · exact Nat.le_refl _

theorem widthNoOperands_length (a : List Char × Bool × Bool) :
    (widthNoOperands a).2.1.length ≤ a.1.length := by
  unfold widthNoOperands
  split
  · next rest h => rw [h]; exact Nat.le_succ _
  · next rest _ => exact parsenum_length _ _ _

theorem precNoOperands_length (w : List Char × List Char × Bool × Bool) :
    (precNoOperands w).2.1.length ≤ w.2.1.length := by
  unfold precNoOperands
  split
  · next c more h =>
    have ha := argNumber_length (c :: more) (w.2.2.2 && !w.2.2.1)
    rw [h]
    split
    · next rest2 h2 =>
      rw [h2] at ha
      simp only [List.length_cons] at ha ⊢
      omega
    · next rest2 _ =>
      have hp := parsenum_length (argNumber (c :: more) (w.2.2.2 && !w.2.2.1)).1 0 false
      simp only [List.length_cons] at ha ⊢
      omega
  · exact Nat.le_refl _

theorem verbNoOperands_length (cs : List Char) :
    (verbNoOperands cs).2.length ≤ cs.length := by
  have h1 := skipFlags_length cs
  have h2 := argNumber_length (skipFlags cs) true
  have h3 := widthNoOperands_length (argNumber (skipFlags cs) true)
  have h4 := precNoOperands_length (widthNoOperands (argNumber (skipFlags cs) true))
  have h6 : (verbNoOperands cs).2.length
      ≤ (precNoOperands (widthNoOperands (argNumber (skipFlags cs) true))).2.1.length := by
    unfold verbNoOperands
    dsimp only
    generalize precNoOperands (widthNoOperands (argNumber (skipFlags cs) true)) = p
    have h5 : (if p.2.2.1 then (p.2.1, true, p.2.2.2) else argNumber p.2.1 p.2.2.2).1.length
        ≤ p.2.1.length := by
      split
      · exact Nat.le_refl _
      · exact argNumber_length _ _
    generalize (if p.2.2.1 then (p.2.1, true, p.2.2.2) else argNumber p.2.1 p.2.2.2) = a3
      at h5 ⊢
    split
    · exact Nat.zero_le _
    · next v rest h =>
      rw [h] at h5
      simp only [List.length_cons] at h5
      split
      · show rest.length ≤ _; omega
      · split
        · show rest.length ≤ _; omega
        · show rest.length ≤ _; omega
  omega

theorem doPrintf_fuel (fuel : Nat) (cs : List Char) (h : cs.length ≤ fuel) :
    doPrintf fuel cs = doPrintf cs.length cs := by
  induction fuel using Nat.strong_induction_on generalizing cs with
  | _ fuel ih =>
    cases cs with
    | nil => cases fuel <;> rfl
    | cons c cs =>
      cases fuel with
      | zero => simp at h
      | succ fuel =>
        have hlen : cs.length ≤ fuel := by simpa using h
        simp only [doPrintf, List.length_cons]
        split
        · have hv := verbNoOperands_length cs
          rw [ih fuel (Nat.lt_succ_self _) _ (Nat.le_trans hv hlen)]
          by_cases hcs : cs.length = fuel
          · rw [hcs, ih fuel (Nat.lt_succ_self _) _ (Nat.le_trans hv hlen)]
          · rw [ih cs.length (by omega) _ hv]
        · by_cases hcs : cs.length = fuel
          · rw [hcs]
          · rw [ih fuel (Nat.lt_succ_self _) _ hlen]

end Dgraphql
